import Mathlib

/-! # gssvpnd: the server event core

A shallow embedding of `src/gssvpnd.c`.  Every callback of the C file is a
pure function on an explicit server state; the collaborators that live outside
the file (the GSS-API library, the kernel, the packet codec) appear as the
fields of an environment record `Env`, and every theorem quantifies over all
environments.

Conventions
* a `struct conn *` is a natural number, `State.conns` is the heap;
* `GSS_C_NO_CONTEXT` is `none`, a live context handle is `some h`;
* a `gss_buffer_desc` is the list of its `length` bytes, the `NULL` buffer
  pointer handed to `send_packet` is `none`;
* the two hash tables `clients_ip` and `clients_ether` map a bucket number to
  the chain hanging off it, head first (the `ipnext` / `ethernext` links);
  the C tables have the entries `0` to `254`, which are the ones the loops
  over a table walk;
* `State.net` is the log of `send_packet` calls and `State.tap` the log of
  `write(tapfd, ...)` calls, oldest first;
* an active libev watcher is a `true` flag.
-/

namespace Gssvpnd

/-! ## Constants -/

def NETINIT_BUFLEN : Nat := 4096

/-- The GSS-API major status codes of RFC 2744 the file compares against. -/
def GSS_S_COMPLETE : Nat := 0
def GSS_S_CONTINUE_NEEDED : Nat := 1
def GSS_S_CREDENTIALS_EXPIRED : Nat := 11 * 65536
def GSS_S_CONTEXT_EXPIRED : Nat := 12 * 65536
def GSS_C_INDEFINITE : Nat := 0xffffffff

/-- The first six bytes of `ether_broadcast`, all the code ever compares. -/
def ether_broadcast : List Nat := [255, 255, 255, 255, 255, 255]
/-- The first six bytes of `ether_empty`. -/
def ether_empty : List Nat := [0, 0, 0, 0, 0, 0]

/-! ## Data model -/

/-- Modelled from the spec: the packet kinds of `gssvpn.h` (the header is not
among the sources); `other` stands for every kind byte the core does not
know. -/
inductive Pac where
  | PAC_DATA
  | PAC_GSSINIT
  | PAC_NETINIT
  | PAC_NETSTART
  | PAC_SHUTDOWN
  | PAC_ECHO
  | other (code : Nat)
  deriving DecidableEq, Repr

/-- Modelled from the spec: the selector of `unlink_conn` declared in
`gssvpn.h` (not among the sources). -/
inductive Which where
  | CLIENT_IP
  | CLIENT_ETHERNET
  | CLIENT_ALL
  deriving DecidableEq, Repr

structure sockaddr_in where
  sin_addr : Nat
  sin_port : Nat
  deriving DecidableEq, Repr

/-- The fields of `struct conn` the server core touches. `freed` records that
`free(client)` ran. -/
structure Conn where
  addr : sockaddr_in
  ipstr : List Char
  sid : Nat
  mac : List Nat
  context : Option Nat
  gssstate : Nat
  princname : Option (List Char)
  ni_value : Option (List Nat)
  ni_length : Nat
  nipipe : Bool
  nichild : Bool
  conntimeout : Bool
  timeout_repeat : Nat
  freed : Bool
  deriving DecidableEq, Repr

/-- One call `send_packet(netfd, payload, &addr, pac, sid)`. -/
structure Sent where
  addr : sockaddr_in
  pac : Pac
  sid : Nat
  payload : Option (List Nat)
  deriving DecidableEq, Repr

/-- What `gss_accept_sec_context` hands back: the major status, the context
handle it leaves in `client->context`, the output token, the display name of
the peer and the lifetime. -/
structure AcceptRes where
  maj : Nat
  context : Option Nat
  output : List Nat
  name : List Char
  timeout : Nat
  deriving DecidableEq, Repr

/-- The collaborators outside `gssvpnd.c`.
* `hash`: the bucket of a MAC (`hash(mac, 6)`), `hash_ip`: the bucket of a
  peer address and session id;
* `send_rc n p`: the return code of the `n`-th `send_packet` call, made with
  arguments `p` (`-2` is the codec's rekey verdict);
* `accept`, `context_time`: `gss_accept_sec_context`, `gss_context_time`;
* `pipe_ok`, `fcntl_ok`: whether `pipe` and `fcntl` succeed;
* `rd i n`: the `i`-th `read` on the helper pipe when `n` bytes are asked for;
  `none` is a return of `-1`, `some bs` a return of `bs.length` with the bytes;
* `inet_ntop`: the printable form of an IPv4 address;
* `gss_none`: the `gssstate` a new connection starts with. -/
structure Env where
  hash : List Nat → Nat
  hash_ip : sockaddr_in → Nat → Nat
  send_rc : Nat → Sent → Int
  accept : Option Nat → List Nat → AcceptRes
  context_time : Option Nat → Nat × Nat
  pipe_ok : Bool
  fcntl_ok : Bool
  rd : Nat → Int → Option (List Nat)
  inet_ntop : Nat → List Char
  gss_none : Nat

/-- The server: heap, the two indexes, the globals `netinit_util` and
`killontimeout`, the two output logs, and the next unused address. -/
structure State where
  conns : Nat → Conn
  clients_ip : Nat → List Nat
  clients_ether : Nat → List Nat
  netinit_util : Option (List Char)
  killontimeout : Bool
  net : List Sent
  tap : List (List Nat)
  next : Nat

/-- Store `c` at address `p`. -/
def State.set (s : State) (p : Nat) (c : Conn) : State :=
  { s with conns := Function.update s.conns p c }

/-! ## Collaborators modelled from the specification -/

/-- Modelled from the spec: `send_packet` of the packet codec (not among the
sources). The call is logged and the codec's return code is the
environment's. -/
def send_packet (e : Env) (s : State) (p : Sent) : Int × State :=
  (e.send_rc s.net.length p, { s with net := s.net ++ [p] })

/-- Modelled from the spec: `unlink_conn` (not among the sources), "unlink from
one or both indexes": afterwards the connection hangs off no chain of the
selected index. -/
def unlink_conn (s : State) (c : Nat) : Which → State
  | .CLIENT_IP =>
    { s with clients_ip := fun h => (s.clients_ip h).filter (fun p => p ≠ c) }
  | .CLIENT_ETHERNET =>
    { s with clients_ether := fun h => (s.clients_ether h).filter (fun p => p ≠ c) }
  | .CLIENT_ALL =>
    { s with
      clients_ip := fun h => (s.clients_ip h).filter (fun p => p ≠ c)
      clients_ether := fun h => (s.clients_ether h).filter (fun p => p ≠ c) }

/-- Modelled from the spec: the connection `get_conn` allocates, "zeroed MAC,
`gss_state = none`, absent context". -/
def new_conn (e : Env) (peer : sockaddr_in) (sid : Nat) : Conn :=
  { addr := peer, ipstr := e.inet_ntop peer.sin_addr, sid := sid,
    mac := ether_empty, context := none, gssstate := e.gss_none,
    princname := none, ni_value := none, ni_length := 0,
    nipipe := false, nichild := false, conntimeout := false,
    timeout_repeat := 0, freed := false }

/-- Modelled from the spec: `get_conn` (not among the sources),
"`get_or_create(peer, session_id)`: look up by the IP index; if absent,
allocate, insert, and return". It always returns a connection, so the `NULL`
test of `netfd_read_cb` has no counterpart. -/
def get_conn (e : Env) (s : State) (peer : sockaddr_in) (sid : Nat) : Nat × State :=
  let h := e.hash_ip peer sid
  match (s.clients_ip h).find? (fun p => (s.conns p).addr = peer ∧ (s.conns p).sid = sid) with
  | some p => (p, s)
  | none =>
    (s.next,
      { s with
        conns := Function.update s.conns s.next (new_conn e peer sid)
        clients_ip := Function.update s.clients_ip h (s.next :: s.clients_ip h)
        next := s.next + 1 })

/-! ## `handle_shutdown` (lines 81-105) -/

/-- The connection is unlinked from both indexes, its context deleted, its
watchers stopped and its memory freed (the buffer, the name, the struct). -/
def handle_shutdown (s : State) (client : Nat) : State :=
  let s1 := unlink_conn s client .CLIENT_ALL
  let c := s1.conns client
  -- gss_delete_sec_context resets the handle to GSS_C_NO_CONTEXT
  let c1 := if c.context ≠ none then { c with context := none } else c
  let c2 :=
    if c1.ni_value ≠ none then
      let a := if c1.nipipe then { c1 with nipipe := false } else c1
      if a.nichild then { a with nichild := false } else a
    else c1
  let c3 := if c2.conntimeout then { c2 with conntimeout := false } else c2
  s1.set client { c3 with freed := true }

/-! ## `netinit_read_cb` (lines 107-126) -/

/-- What the `do ... while` loop of `netinit_read_cb` leaves behind: the
buffer, `ni.length`, the number of `read` calls made, the return value of the
last `read`, and the trace of the requests as pairs (`ni.length` at the call,
bytes asked for). -/
structure ReadLoop where
  value : List Nat
  length : Nat
  calls : Nat
  last_r : Int
  trace : List (Nat × Int)
  deriving DecidableEq, Repr

/-- The `do ... while` loop; `i` numbers the `read` calls, `tocopy` is the C
local of that name, `value` and `length` are `c->ni`. `none` only when the
fuel runs out. -/
def netinit_loop (e : Env) : Nat → Nat → Int → List Nat → Nat → List (Nat × Int) →
    Option ReadLoop
  | 0, _, _, _, _, _ => none
  | fuel + 1, i, tocopy, value, length, trace =>
    let tocopy1 : Int := if length ≠ 0 then (NETINIT_BUFLEN : Int) - length else tocopy
    let res := e.rd i tocopy1
    let r : Int := match res with
      | none => -1
      | some bs => bs.length
    let value1 := match res with
      | none => value
      | some bs => value ++ bs
    let length1 := if r > 0 then length + r.toNat else length
    let trace1 := trace ++ [(length, tocopy1)]
    if r > 0 ∧ length1 < NETINIT_BUFLEN then
      netinit_loop e fuel (i + 1) tocopy1 value1 length1 trace1
    else
      some { value := value1, length := length1, calls := i + 1, last_r := r, trace := trace1 }

/-- The loop as `netinit_read_cb` starts it: `tocopy = NETINIT_BUFLEN`, and
more fuel than the buffer has bytes. -/
def netinit_run (e : Env) (i : Nat) (value : List Nat) (length : Nat) : Option ReadLoop :=
  netinit_loop e (NETINIT_BUFLEN + 1) i NETINIT_BUFLEN value length []

/-- The callback on connection `c`; `i` is the number of `read` calls made on
the pipe so far. `none` only when the loop runs out of fuel. -/
def netinit_read_cb (e : Env) (s : State) (c : Nat) (i : Nat) : Option State :=
  let conn := s.conns c
  match conn.ni_value with
  | none => some s
  | some buf =>
    match netinit_run e i buf conn.ni_length with
    | none => none
    | some r =>
      let conn1 := { conn with ni_value := some r.value, ni_length := r.length }
      let conn2 := if r.length = NETINIT_BUFLEN then { conn1 with nipipe := false } else conn1
      some (s.set c conn2)

/-! ## `conn_timeout_cb` (lines 128-153) -/

/-- The timer of connection `c` fires. -/
def conn_timeout_cb (e : Env) (s : State) (c : Nat) : State :=
  let conn := s.conns c
  let maj := (e.context_time conn.context).1
  let timeout := (e.context_time conn.context).2
  if maj = GSS_S_COMPLETE ∧ timeout > 0 then
    -- iot->repeat = timeout; ev_timer_again(loop, iot)
    s.set c { conn with timeout_repeat := timeout, conntimeout := true }
  else
    let s1 :=
      if maj = GSS_S_CONTEXT_EXPIRED ∨ maj = GSS_S_CREDENTIALS_EXPIRED then
        if s.killontimeout then
          handle_shutdown (send_packet e s ⟨conn.addr, .PAC_SHUTDOWN, conn.sid, none⟩).2 c
        else
          (send_packet e s ⟨conn.addr, .PAC_GSSINIT, conn.sid, none⟩).2
      else s
    -- ev_timer_stop(loop, iot)
    s1.set c { s1.conns c with conntimeout := false }

/-! ## `netinit_child_cb` (lines 155-180) -/

/-- Lines 158-163: stop the child watcher, and when the pipe reader is still
active run it one last time and stop it. `i` is the number of `read` calls
made on the pipe so far. -/
def netinit_child_drain (e : Env) (s : State) (c : Nat) (i : Nat) : Option State :=
  -- ev_child_stop(loop, ioc)
  let s1 := s.set c { s.conns c with nichild := false }
  if (s1.conns c).nipipe then
    match netinit_read_cb e s1 c i with
    | none => none
    | some s2 =>
      some (if (s2.conns c).nipipe then s2.set c { s2.conns c with nipipe := false } else s2)
  else some s1

/-- The child watcher of connection `c` fires with exit status `rstatus`. -/
def netinit_child_cb (e : Env) (s : State) (c : Nat) (rstatus : Int) (i : Nat) :
    Option State :=
  match netinit_child_drain e s c i with
  | none => none
  | some s3 =>
    let conn := s3.conns c
    if rstatus ≠ 0 then
      some (handle_shutdown (send_packet e s3 ⟨conn.addr, .PAC_SHUTDOWN, conn.sid, none⟩).2 c)
    else
      let s4 := (send_packet e s3
        ⟨conn.addr, .PAC_NETINIT, conn.sid,
          if conn.ni_length > 0 then conn.ni_value else none⟩).2
      some (s4.set c { s4.conns c with ni_length := 0, ni_value := none })

/-! ## `tapfd_read_cb` (lines 182-240) -/

/-- One iteration of the inner `while(cur)` loop of the broadcast branch. -/
def bcast_visit (e : Env) (plaintext : List Nat) (s : State) (cur : Nat) : State :=
  let conn := s.conns cur
  if conn.context = none ∨ conn.gssstate = GSS_S_CONTINUE_NEEDED then s
  else
    let rs := send_packet e s ⟨conn.addr, .PAC_DATA, conn.sid, some plaintext⟩
    if rs.1 = -2 then
      let s1 := rs.2
      let s2 :=
        if (s1.conns cur).context ≠ none then
          s1.set cur { s1.conns cur with context := none }
        else s1
      (send_packet e s2 ⟨(s2.conns cur).addr, .PAC_GSSINIT, (s2.conns cur).sid, none⟩).2
    else rs.2

/-- The inner `while(cur)` loop: walk one chain along `ethernext`. -/
def bcast_chain (e : Env) (plaintext : List Nat) : State → List Nat → State
  | s, [] => s
  | s, cur :: rest => bcast_chain e plaintext (bcast_visit e plaintext s cur) rest

/-- The outer `for(i = 0; i < 255; i++)` loop over `clients_ether[i]`. -/
def bcast_buckets (e : Env) (plaintext : List Nat) (s : State) : State :=
  (List.range 255).foldl (fun st i => bcast_chain e plaintext st (st.clients_ether i)) s

/-- The tap is readable: `read` returned `size` (with `errno == EAGAIN` when
`eagain`) and left `framebuf` in the 1550-byte buffer. The buffer
`plaintext = { size, framebuf }` is the first `size` bytes of `framebuf`; the
theorems below are about reads that succeeded (`0 ≤ size`). -/
def tapfd_read_cb (e : Env) (s : State) (size : Int) (eagain : Bool) (framebuf : List Nat) :
    State :=
  let plaintext := framebuf.take size.toNat
  if size < 0 ∧ eagain then s
  else
    let dstmac := framebuf.take 6
    if dstmac = ether_broadcast then bcast_buckets e plaintext s
    else
      let eh := e.hash dstmac
      match (s.clients_ether eh).find? (fun p => (s.conns p).mac = dstmac) with
      | none => s
      | some client =>
        let conn := s.conns client
        let rs := send_packet e s ⟨conn.addr, .PAC_DATA, conn.sid, some plaintext⟩
        if rs.1 = -2 then
          let s1 := rs.2
          let s2 :=
            if (s1.conns client).context ≠ none then
              s1.set client { s1.conns client with context := none }
            else s1
          (send_packet e s2
            ⟨(s2.conns client).addr, .PAC_GSSINIT, (s2.conns client).sid, none⟩).2
        else rs.2

/-! ## `handle_netinit` (lines 242-316) -/

/-- The byte `*filename` at offset `i` of the NUL-terminated string `util`;
`none` outside the string and its terminator. -/
def char_at (util : List Char) (i : Int) : Option Char :=
  if i < 0 then none
  else if i.toNat = util.length then some (Char.ofNat 0)
  else util.get? i.toNat

/-- The loop `while(*filename != '/' && filename != netinit_util) filename--`
on the offset of `filename` from `netinit_util`. `none` when a byte outside
the string is read or the fuel runs out. -/
def scan_back (util : List Char) : Nat → Int → Option Int
  | 0, _ => none
  | fuel + 1, i =>
    match char_at util i with
    | none => none
    | some ch => if ch ≠ '/' ∧ i ≠ 0 then scan_back util fuel (i - 1) else some i

/-- The `filename` the child computes from `netinit_util` (lines 293-301). -/
def helper_filename (util : List Char) : Option (List Char) :=
  match scan_back util (util.length + 1) ((util.length : Int) - 1) with
  | none => none
  | some i =>
    match char_at util i with
    | none => none
    | some ch =>
      let j : Int := if ch = '/' then i + 1 else i
      some (util.drop j.toNat)

/-- The child branch of the `fork`: the path and the argument vector handed to
`execl` (a `NULL` `princname` ends the argument list early). -/
def child_execl (s : State) (client : Nat) (util : List Char) :
    Option (List Char × List (List Char)) :=
  let conn := s.conns client
  match helper_filename util with
  | none => none
  | some filename =>
    let portstr := (Nat.repr conn.addr.sin_port).toList
    some (util, filename :: (match conn.princname with
      | none => []
      | some name => [name, conn.ipstr, portstr]))

/-- Lines 253-260: when the first six bytes of the payload differ from the
stored MAC, overwrite the MAC, hash the new MAC, unlink the connection from
the Ethernet index and push it on the chain of the new bucket. -/
def handle_netinit_learn (e : Env) (s : State) (client : Nat) (macbuf : List Nat) : State :=
  if macbuf.take 6 ≠ (s.conns client).mac then
    let a := s.set client { s.conns client with mac := macbuf.take 6 }
    let eh := e.hash (a.conns client).mac
    let b := unlink_conn a client .CLIENT_ETHERNET
    { b with clients_ether := Function.update b.clients_ether eh (client :: b.clients_ether eh) }
  else s

/-- Lines 262-315, the parent's side: answer at once when no helper is
configured, otherwise set up the pipe and start the helper. -/
def handle_netinit_start (e : Env) (s1 : State) (client : Nat) : State :=
  let conn := s1.conns client
  match s1.netinit_util with
  | none => (send_packet e s1 ⟨conn.addr, .PAC_NETINIT, conn.sid, none⟩).2
  | some _ =>
    if ¬ e.pipe_ok then
      handle_shutdown (send_packet e s1 ⟨conn.addr, .PAC_SHUTDOWN, conn.sid, none⟩).2 client
    else if ¬ e.fcntl_ok then
      handle_shutdown (send_packet e s1 ⟨conn.addr, .PAC_SHUTDOWN, conn.sid, none⟩).2 client
    else
      -- malloc the buffer, start the pipe reader, fork, start the child watcher
      s1.set client
        { conn with ni_value := some [], ni_length := 0, nipipe := true, nichild := true }

/-- The parent's side of `handle_netinit`. -/
def handle_netinit (e : Env) (s : State) (client : Nat) (macbuf : List Nat) : State :=
  if (s.conns client).nichild then s
  else if macbuf.length < 6 then s
  else handle_netinit_start e (handle_netinit_learn e s client macbuf) client

/-! ## `handle_gssinit` (lines 318-370) -/

/-- A `GSSINIT` packet with token `intoken` arrived for `client`. -/
def handle_gssinit (e : Env) (s : State) (client : Nat) (intoken : List Nat) : State :=
  let s1 :=
    if (s.conns client).gssstate = GSS_S_COMPLETE ∧ (s.conns client).context ≠ none then
      s.set client { s.conns client with context := none }
    else s
  let s2 :=
    if (s1.conns client).conntimeout then
      s1.set client { s1.conns client with conntimeout := false }
    else s1
  let r := e.accept (s2.conns client).context intoken
  let s3 := s2.set client { s2.conns client with context := r.context }
  if r.maj ≠ GSS_S_COMPLETE ∧ r.maj ≠ GSS_S_CONTINUE_NEEDED then s3
  else
    let s4 := s3.set client { s3.conns client with gssstate := r.maj }
    let s5 :=
      if r.output.length > 0 then
        (send_packet e s4
          ⟨(s4.conns client).addr, .PAC_GSSINIT, (s4.conns client).sid, some r.output⟩).2
      else s4
    if r.maj = GSS_S_CONTINUE_NEEDED then s5
    else
      let s6 := s5.set client { s5.conns client with princname := some r.name }
      let s7 :=
        if r.timeout ≠ GSS_C_INDEFINITE then
          let a :=
            if (s6.conns client).conntimeout then
              s6.set client { s6.conns client with conntimeout := false }
            else s6
          conn_timeout_cb e a client
        else s6
      if (s7.conns client).mac = ether_empty then
        (send_packet e s7
          ⟨(s7.conns client).addr, .PAC_NETSTART, (s7.conns client).sid, none⟩).2
      else s7

/-! ## `netfd_read_cb` (lines 372-435) -/

/-- What `recv_packet` hands back: its return code, the payload, the packet
kind, the peer address and the session id. -/
structure Recv where
  rc : Int
  packet : List Nat
  pac : Pac
  peer : sockaddr_in
  sid : Nat
  deriving DecidableEq, Repr

/-- The socket is readable and `recv_packet` handed back `r`. -/
def netfd_read_cb (e : Env) (s : State) (r : Recv) : State :=
  if r.rc = -2 then
    let g := get_conn e s r.peer r.sid
    let client := g.1
    let s1 := g.2
    let s2 :=
      if (s1.conns client).context ≠ none then
        s1.set client { s1.conns client with context := none }
      else s1
    (send_packet e s2 ⟨(s2.conns client).addr, .PAC_GSSINIT, r.sid, none⟩).2
  else if r.rc < 0 then s
  else
    let g := get_conn e s r.peer r.sid
    let client := g.1
    let s1 := g.2
    let s2 :=
      if (s1.conns client).addr ≠ r.peer then
        s1.set client
          { s1.conns client with addr := r.peer, ipstr := e.inet_ntop r.peer.sin_addr }
      else s1
    let conn := s2.conns client
    if (conn.gssstate = GSS_S_CONTINUE_NEEDED ∨ conn.context = none) ∧ r.pac ≠ .PAC_GSSINIT then
      (send_packet e s2 ⟨conn.addr, .PAC_GSSINIT, r.sid, none⟩).2
    else if r.pac = .PAC_DATA ∧ conn.mac = ether_empty then s2
    else if r.pac = .PAC_DATA ∧ r.packet.length > 0 then
      { s2 with tap := s2.tap ++ [r.packet] }
    else if r.pac = .PAC_GSSINIT then handle_gssinit e s2 client r.packet
    else if r.pac = .PAC_NETINIT then handle_netinit e s2 client r.packet
    else if r.pac = .PAC_SHUTDOWN then handle_shutdown s2 client
    else if r.pac = .PAC_ECHO then (send_packet e s2 ⟨conn.addr, .PAC_ECHO, r.sid, none⟩).2
    else s2

/-! ## Vocabulary of the specification -/

/-- The spec's `Established`: `gss_state = complete` with a context present. -/
def Established (c : Conn) : Prop := c.gssstate = GSS_S_COMPLETE ∧ c.context ≠ none

/-- The spec's `Handshaking`: `gss_state = continue_needed`. -/
def Handshaking (c : Conn) : Prop := c.gssstate = GSS_S_CONTINUE_NEEDED

instance (c : Conn) : Decidable (Established c) := by unfold Established; infer_instance
instance (c : Conn) : Decidable (Handshaking c) := by unfold Handshaking; infer_instance

/-- The context handle `handle_gssinit` passes to `gss_accept_sec_context`:
a complete context is deleted first (lines 324-328). -/
def accept_context (c : Conn) : Option Nat :=
  if c.gssstate = GSS_S_COMPLETE ∧ c.context ≠ none then none else c.context

/-- The test the code applies before it writes a `DATA` payload to the tap
(lines 400-417): a context is present, `gssstate` is not
`GSS_S_CONTINUE_NEEDED`, the MAC is not all-zero and the payload is not
empty. -/
def tap_gate (c : Conn) (packet : List Nat) : Prop :=
  c.context ≠ none ∧ c.gssstate ≠ GSS_S_CONTINUE_NEEDED ∧ c.mac ≠ ether_empty ∧ packet ≠ []

instance (c : Conn) (packet : List Nat) : Decidable (tap_gate c packet) := by
  unfold tap_gate; infer_instance

/-- The buffer and its length as `netinit_child_cb` finds them after the last
drain (lines 159-163): the result of one more run of the read loop when the
pipe reader is still active, the stored buffer otherwise. -/
def drained_buffer (e : Env) (conn : Conn) (i : Nat) : Option (List Nat × Nat) :=
  match conn.ni_value with
  | none => none
  | some buf =>
    if conn.nipipe then (netinit_run e i buf conn.ni_length).map (fun r => (r.value, r.length))
    else some (buf, conn.ni_length)

/-- The Ethernet-index invariant of the spec: every connection reachable from
the IP index whose MAC is not all-zero hangs off the chain of `hash(mac)` and
off no other chain of the Ethernet index. -/
def EtherInv (e : Env) (s : State) : Prop :=
  ∀ q, (∃ h, q ∈ s.clients_ip h) → (s.conns q).mac ≠ ether_empty →
    q ∈ s.clients_ether (e.hash (s.conns q).mac) ∧
    ∀ h, h ≠ e.hash (s.conns q).mac → q ∉ s.clients_ether h

/-- No connection in the Ethernet index carries the broadcast MAC. -/
def NoBroadcast (s : State) : Prop :=
  ∀ h, ∀ q ∈ s.clients_ether h, (s.conns q).mac ≠ ether_broadcast

/-- Whether `handle_netinit` gets past the pipe set-up: no helper is
configured, or `pipe` and `fcntl` both succeed. -/
def setup_ok (e : Env) (s : State) : Prop :=
  s.netinit_util = none ∨ (e.pipe_ok = true ∧ e.fcntl_ok = true)

/-- A request of `netinit_read_cb`, as a pair (`ni.length` at the call, bytes
asked for), stays inside the buffer. -/
def request_ok (q : Nat × Int) : Prop :=
  q.1 ≤ NETINIT_BUFLEN ∧ 0 ≤ q.2 ∧ q.2 ≤ (NETINIT_BUFLEN : Int) - q.1

/-- A new MAC for the fixture connection, followed by an opaque tail. -/
def new_mac_payload : List Nat := [82, 84, 0, 170, 187, 204, 104, 105]

/-- All connections of the Ethernet index, in the order in which the broadcast
loop of `tapfd_read_cb` visits them: buckets `0` to `254`, each chain head
first. -/
def ether_all (s : State) : List Nat := (List.range 255).flatMap s.clients_ether

/-- The test of the broadcast loop before it sends (lines 198-199, negated): a
context is present and `gssstate` is not `GSS_S_CONTINUE_NEEDED`. -/
def sendable (c : Conn) : Prop := c.context ≠ none ∧ c.gssstate ≠ GSS_S_CONTINUE_NEEDED

instance (c : Conn) : Decidable (sendable c) := by unfold sendable; infer_instance

/-- The packets of a log that went to peer address `addr` with session id
`sid`. -/
def sent_to (addr : sockaddr_in) (sid : Nat) (log : List Sent) : List Sent :=
  log.filter (fun p => p.addr = addr ∧ p.sid = sid)

/-- The `DATA` packets of a log. -/
def data_only (log : List Sent) : List Sent := log.filter (fun p => p.pac = Pac.PAC_DATA)

/-- The `GSSINIT` packets of a log. -/
def gssinit_only (log : List Sent) : List Sent := log.filter (fun p => p.pac = Pac.PAC_GSSINIT)

/-- The spec's uniqueness invariant on a list of connections: distinct
connections differ in peer address or session id. -/
def distinct_keys (s : State) (L : List Nat) : Prop :=
  ∀ p ∈ L, ∀ q ∈ L, (s.conns p).addr = (s.conns q).addr → (s.conns p).sid = (s.conns q).sid →
    p = q

/-- The `DATA` packet carrying `plaintext` for connection `c`. -/
def data_pkt (c : Conn) (plaintext : List Nat) : Sent :=
  ⟨c.addr, .PAC_DATA, c.sid, some plaintext⟩

/-- The packet `GSSINIT(empty)` for connection `c`. -/
def gssinit_pkt (c : Conn) : Sent := ⟨c.addr, .PAC_GSSINIT, c.sid, none⟩

/-- What one run of a handler may change for a rekey: the Ethernet index is
untouched, connections outside `touched` are untouched, and of the others only
the context changes, and only to `GSS_C_NO_CONTEXT`. -/
def Frame (s s' : State) (touched : List Nat) : Prop :=
  s'.clients_ether = s.clients_ether ∧
  (∀ q, q ∉ touched → s'.conns q = s.conns q) ∧
  ∀ q, (s'.conns q).addr = (s.conns q).addr ∧ (s'.conns q).sid = (s.conns q).sid ∧
    (s'.conns q).gssstate = (s.conns q).gssstate ∧
    ((s'.conns q).context = (s.conns q).context ∨ (s'.conns q).context = none)

/-- The packets one run of the inner broadcast loop adds to the log. -/
def bcast_out (e : Env) (plaintext : List Nat) (s : State) (L : List Nat) : List Sent :=
  (bcast_chain e plaintext s L).net.drop s.net.length

instance (s : State) (L : List Nat) : Decidable (distinct_keys s L) := by
  unfold distinct_keys; infer_instance

/-! ## Fixtures for the closed examples -/

def env0 : Env :=
  { hash := fun m => m.sum % 255
    hash_ip := fun a sid => (a.sin_addr + a.sin_port + sid) % 255
    send_rc := fun _ _ => 0
    accept := fun _ _ => ⟨13 * 65536, none, [], [], 0⟩
    context_time := fun _ => (GSS_S_CONTEXT_EXPIRED, 0)
    pipe_ok := false
    fcntl_ok := true
    rd := fun _ _ => none
    inet_ntop := fun _ => []
    gss_none := 0 }

def peer0 : sockaddr_in := ⟨167772165, 40000⟩

def conn0 : Conn :=
  { addr := peer0, ipstr := [], sid := 4660, mac := [82, 84, 0, 18, 52, 86],
    context := some 1, gssstate := GSS_S_COMPLETE, princname := none,
    ni_value := none, ni_length := 0, nipipe := false, nichild := false,
    conntimeout := true, timeout_repeat := 0, freed := false }

def st0 : State :=
  { conns := fun _ => conn0
    clients_ip := fun h => if h = env0.hash_ip peer0 4660 then [0] else []
    clients_ether := fun h => if h = env0.hash conn0.mac then [0] else []
    netinit_util := none
    killontimeout := false
    net := []
    tap := []
    next := 1 }

/-- An environment whose helper pipe delivers up to three bytes on the first
`read` and fails afterwards; `pipe` and `fcntl` succeed. -/
def env_pipe : Env :=
  { env0 with
    rd := fun j n => if j = 0 ∧ 0 ≤ n then some (List.replicate (min 3 n.toNat) 7) else none
    pipe_ok := true }

/-- The fixture state with a helper running for connection `0`. -/
def st_helper : State :=
  st0.set 0 { conn0 with ni_value := some [], ni_length := 0, nipipe := true, nichild := true }

/-- The helper path `/usr/bin/nh`. -/
def helper_path : List Char := ['/', 'u', 's', 'r', '/', 'b', 'i', 'n', '/', 'n', 'h']

/-- The fixture state with the helper `/usr/bin/nh` configured. -/
def st_util : State := { st0 with netinit_util := some helper_path }

/-- A second peer, still in the handshake. -/
def conn1 : Conn :=
  { conn0 with
    addr := ⟨167772166, 40001⟩, sid := 17, mac := [82, 84, 0, 0, 0, 1],
    context := some 2, gssstate := GSS_S_CONTINUE_NEEDED }

/-- A third peer, `Established`; its MAC falls into the bucket of `conn1`. -/
def conn2 : Conn :=
  { conn0 with
    addr := ⟨167772167, 40002⟩, sid := 18, mac := [82, 84, 0, 0, 1, 0], context := some 3 }

/-- Three connections in the Ethernet index: `0` and `2` are `Established`,
`1` is `Handshaking`; `1` and `2` share a bucket. -/
def st3 : State :=
  { st0 with
    conns := fun p => if p = 1 then conn1 else if p = 2 then conn2 else conn0
    clients_ether := fun h =>
      if h = env0.hash conn0.mac then [0] else if h = env0.hash conn1.mac then [1, 2] else []
    next := 3 }

/-- An environment whose codec asks for a rekey on every `DATA` packet of the
fixture connection `0`. -/
def env_rekey : Env :=
  { env0 with send_rc := fun _ p => if p.pac = Pac.PAC_DATA ∧ p.sid = 4660 then -2 else 0 }

/-- A broadcast frame of 8 bytes in the tap buffer. -/
def bcast_frame : List Nat := [255, 255, 255, 255, 255, 255, 1, 2]

/-- A unicast frame for the fixture connection `0`. -/
def ucast_frame : List Nat := [82, 84, 0, 18, 52, 86, 1, 2]

set_option maxRecDepth 100000

/-! ## Projections of the state updates -/

@[simp] theorem set_conns_self (s : State) (p : Nat) (c : Conn) : (s.set p c).conns p = c := by
  simp [State.set]

theorem set_conns_other (s : State) (p q : Nat) (c : Conn) (h : q ≠ p) :
    (s.set p c).conns q = s.conns q := by
  simp [State.set, Function.update, h]

@[simp] theorem set_net (s : State) (p : Nat) (c : Conn) : (s.set p c).net = s.net := rfl
@[simp] theorem set_tap (s : State) (p : Nat) (c : Conn) : (s.set p c).tap = s.tap := rfl
@[simp] theorem set_clients_ip (s : State) (p : Nat) (c : Conn) :
    (s.set p c).clients_ip = s.clients_ip := rfl
@[simp] theorem set_clients_ether (s : State) (p : Nat) (c : Conn) :
    (s.set p c).clients_ether = s.clients_ether := rfl
@[simp] theorem set_netinit_util (s : State) (p : Nat) (c : Conn) :
    (s.set p c).netinit_util = s.netinit_util := rfl
@[simp] theorem set_killontimeout (s : State) (p : Nat) (c : Conn) :
    (s.set p c).killontimeout = s.killontimeout := rfl

@[simp] theorem send_packet_net (e : Env) (s : State) (p : Sent) :
    (send_packet e s p).2.net = s.net ++ [p] := rfl
@[simp] theorem send_packet_rc (e : Env) (s : State) (p : Sent) :
    (send_packet e s p).1 = e.send_rc s.net.length p := rfl
@[simp] theorem send_packet_conns (e : Env) (s : State) (p : Sent) :
    (send_packet e s p).2.conns = s.conns := rfl
@[simp] theorem send_packet_tap (e : Env) (s : State) (p : Sent) :
    (send_packet e s p).2.tap = s.tap := rfl
@[simp] theorem send_packet_clients_ip (e : Env) (s : State) (p : Sent) :
    (send_packet e s p).2.clients_ip = s.clients_ip := rfl
@[simp] theorem send_packet_clients_ether (e : Env) (s : State) (p : Sent) :
    (send_packet e s p).2.clients_ether = s.clients_ether := rfl
@[simp] theorem send_packet_netinit_util (e : Env) (s : State) (p : Sent) :
    (send_packet e s p).2.netinit_util = s.netinit_util := rfl
@[simp] theorem send_packet_killontimeout (e : Env) (s : State) (p : Sent) :
    (send_packet e s p).2.killontimeout = s.killontimeout := rfl

/-! ## Facts about `unlink_conn` and `handle_shutdown` -/

theorem not_mem_filter_ne (l : List Nat) (c : Nat) : c ∉ l.filter (fun p => p ≠ c) := by
  intro h
  have := (List.mem_filter.1 h).2
  simp at this

theorem mem_filter_ne (l : List Nat) (c q : Nat) (h : q ≠ c) :
    q ∈ l.filter (fun p => p ≠ c) ↔ q ∈ l := by
  simp [List.mem_filter, h]

theorem handle_shutdown_net (s : State) (c : Nat) : (handle_shutdown s c).net = s.net := rfl

theorem handle_shutdown_tap (s : State) (c : Nat) : (handle_shutdown s c).tap = s.tap := rfl

theorem handle_shutdown_clients_ip (s : State) (c h : Nat) :
    (handle_shutdown s c).clients_ip h = (s.clients_ip h).filter (fun p => p ≠ c) := rfl

theorem handle_shutdown_clients_ether (s : State) (c h : Nat) :
    (handle_shutdown s c).clients_ether h = (s.clients_ether h).filter (fun p => p ≠ c) := rfl

theorem handle_shutdown_conns_other (s : State) (c q : Nat) (h : q ≠ c) :
    (handle_shutdown s c).conns q = s.conns q := by
  unfold handle_shutdown
  rw [set_conns_other _ _ _ _ h]
  rfl

theorem handle_shutdown_freed (s : State) (c : Nat) :
    ((handle_shutdown s c).conns c).freed = true := by
  unfold handle_shutdown
  simp

theorem handle_shutdown_mac (s : State) (c : Nat) :
    ((handle_shutdown s c).conns c).mac = (s.conns c).mac := by
  unfold handle_shutdown
  simp only [set_conns_self]
  have h : (unlink_conn s c Which.CLIENT_ALL).conns = s.conns := rfl
  rw [h]
  split_ifs <;> rfl

theorem handle_shutdown_context (s : State) (c : Nat) :
    ((handle_shutdown s c).conns c).context = none := by
  unfold handle_shutdown
  simp only [set_conns_self]
  have h : (unlink_conn s c Which.CLIENT_ALL).conns = s.conns := rfl
  rw [h]
  split_ifs <;> simp_all

theorem handle_shutdown_conntimeout (s : State) (c : Nat) :
    ((handle_shutdown s c).conns c).conntimeout = false := by
  unfold handle_shutdown
  simp only [set_conns_self]
  have h : (unlink_conn s c Which.CLIENT_ALL).conns = s.conns := rfl
  rw [h]
  split_ifs <;> simp_all

theorem handle_shutdown_watchers (s : State) (c : Nat)
    (hw : (s.conns c).ni_value ≠ none ∨ ((s.conns c).nipipe = false ∧ (s.conns c).nichild = false)) :
    ((handle_shutdown s c).conns c).nipipe = false ∧
    ((handle_shutdown s c).conns c).nichild = false := by
  unfold handle_shutdown
  simp only [set_conns_self]
  have h : (unlink_conn s c Which.CLIENT_ALL).conns = s.conns := rfl
  rw [h]
  split_ifs <;> simp_all

/-- The read loop never runs out of its fuel. -/
theorem netinit_loop_total (e : Env) :
    ∀ (fuel i : Nat) (tocopy : Int) (value : List Nat) (length : Nat) (trace : List (Nat × Int)),
      0 < fuel → NETINIT_BUFLEN < fuel + length →
      ∃ r, netinit_loop e fuel i tocopy value length trace = some r := by
  intro fuel
  induction fuel with
  | zero => intro i tocopy value length trace h; omega
  | succ fuel ih =>
    intro i tocopy value length trace _ h2
    unfold netinit_loop
    simp only
    generalize (if length ≠ 0 then (NETINIT_BUFLEN : Int) - length else tocopy) = tc
    cases e.rd i tc with
    | none =>
      have hc : ¬ ((-1 : Int) > 0 ∧ length < NETINIT_BUFLEN) := by omega
      simp only [hc, if_false]
      exact ⟨_, rfl⟩
    | some bs =>
      simp only [Int.toNat_ofNat]
      by_cases hc : ((bs.length : Nat) : Int) > 0 ∧
          (if ((bs.length : Nat) : Int) > 0 then length + bs.length else length) < NETINIT_BUFLEN
      · rw [if_pos hc]
        have h3 := hc.2
        rw [if_pos hc.1] at h3
        have h4 : (if ((bs.length : Nat) : Int) > 0 then length + bs.length else length)
            = length + bs.length := if_pos hc.1
        rw [h4]
        apply ih
        · omega
        · have := hc.1
          omega
      · rw [if_neg hc]
        exact ⟨_, rfl⟩

theorem netinit_run_total (e : Env) (i : Nat) (value : List Nat) (length : Nat) :
    ∃ r, netinit_run e i value length = some r :=
  netinit_loop_total e _ _ _ _ _ _ (by decide) (by omega)

/-! ## C1: `DATA` packets and the tap -/

theorem get_conn_tap (e : Env) (s : State) (peer : sockaddr_in) (sid : Nat) :
    (get_conn e s peer sid).2.tap = s.tap := by
  unfold get_conn
  dsimp only
  split <;> rfl

theorem get_conn_net (e : Env) (s : State) (peer : sockaddr_in) (sid : Nat) :
    (get_conn e s peer sid).2.net = s.net := by
  unfold get_conn
  dsimp only
  split <;> rfl

/-- C1, counterexample: the fixture connection is `Established` and has a
non-zero MAC, a `DATA` packet with an empty payload is received from it
successfully, and nothing is written to the tap. -/
theorem netfd_read_cb_empty_data_not_written :
    (get_conn env0 st0 peer0 4660).1 = 0 ∧
    Established (st0.conns 0) ∧ (st0.conns 0).mac ≠ ether_empty ∧
    (netfd_read_cb env0 st0 ⟨0, [], .PAC_DATA, peer0, 4660⟩).tap = st0.tap := by
  decide

/-- C1, amended: for every state and every successfully received `DATA`
packet, `netfd_read_cb` appends the payload to the tap log if and only if the
sending connection has a context, its `gssstate` is not
`GSS_S_CONTINUE_NEEDED`, its MAC is not all-zero and the payload is not empty;
otherwise the tap log is unchanged. For a connection whose `gssstate` is
complete or continue-needed the first two conditions say it is
`Established`. -/
theorem netfd_read_cb_data (e : Env) (s : State) (r : Recv)
    (hrc : 0 ≤ r.rc) (hpac : r.pac = .PAC_DATA) :
    (netfd_read_cb e s r).tap =
      (if tap_gate ((get_conn e s r.peer r.sid).2.conns (get_conn e s r.peer r.sid).1) r.packet
        then s.tap ++ [r.packet] else s.tap) ∧
    (((get_conn e s r.peer r.sid).2.conns (get_conn e s r.peer r.sid).1).gssstate
          = GSS_S_COMPLETE ∨
      ((get_conn e s r.peer r.sid).2.conns (get_conn e s r.peer r.sid).1).gssstate
          = GSS_S_CONTINUE_NEEDED →
      (tap_gate ((get_conn e s r.peer r.sid).2.conns (get_conn e s r.peer r.sid).1) r.packet ↔
        Established ((get_conn e s r.peer r.sid).2.conns (get_conn e s r.peer r.sid).1) ∧
        ((get_conn e s r.peer r.sid).2.conns (get_conn e s r.peer r.sid).1).mac ≠ ether_empty ∧
        r.packet ≠ [])) := by
  have h2 : ¬ r.rc = -2 := by omega
  have h3 : ¬ r.rc < 0 := by omega
  have htap := get_conn_tap e s r.peer r.sid
  unfold netfd_read_cb
  simp only [h2, h3, if_false, hpac]
  generalize get_conn e s r.peer r.sid = g at htap ⊢
  constructor
  · unfold tap_gate
    by_cases ha : (g.2.conns g.1).addr ≠ r.peer
    · rw [if_pos ha]
      simp only [set_conns_self, set_tap]
      split_ifs <;> simp_all
    · rw [if_neg ha]
      split_ifs <;> simp_all
  · intro hst
    unfold tap_gate Established
    have : GSS_S_COMPLETE ≠ GSS_S_CONTINUE_NEEDED := by decide
    rcases hst with h | h <;> rw [h] <;> simp [this, this.symm]

/-- C1, witness: a non-empty `DATA` payload from the fixture connection is
written to the tap. -/
theorem netfd_read_cb_data_witness :
    (0 : Int) ≤ 0 ∧
    (netfd_read_cb env0 st0 ⟨0, [8, 9], .PAC_DATA, peer0, 4660⟩).tap = st0.tap ++ [[8, 9]] :=
  ⟨by decide,
    (netfd_read_cb_data env0 st0 ⟨0, [8, 9], .PAC_DATA, peer0, 4660⟩ (by decide) rfl).1.trans
      (by decide)⟩

/-! ## The broadcast loop of `tapfd_read_cb` -/

theorem bcast_visit_skip (e : Env) (pt : List Nat) (s : State) (cur : Nat)
    (h : ¬ sendable (s.conns cur)) : bcast_visit e pt s cur = s := by
  unfold bcast_visit
  unfold sendable at h
  have : (s.conns cur).context = none ∨ (s.conns cur).gssstate = GSS_S_CONTINUE_NEEDED := by
    by_contra hc
    exact h ⟨fun a => hc (Or.inl a), fun a => hc (Or.inr a)⟩
  rw [if_pos this]

theorem bcast_visit_send (e : Env) (pt : List Nat) (s : State) (cur : Nat)
    (h : sendable (s.conns cur)) :
    bcast_visit e pt s cur =
      if e.send_rc s.net.length (data_pkt (s.conns cur) pt) = -2 then
        { s.set cur { s.conns cur with context := none } with
          net := s.net ++ [data_pkt (s.conns cur) pt, gssinit_pkt (s.conns cur)] }
      else { s with net := s.net ++ [data_pkt (s.conns cur) pt] } := by
  unfold bcast_visit
  have hn : ¬ ((s.conns cur).context = none ∨ (s.conns cur).gssstate = GSS_S_CONTINUE_NEEDED) := by
    rintro (a | a)
    · exact h.1 a
    · exact h.2 a
  rw [if_neg hn]
  simp only [send_packet_rc, send_packet_conns]
  unfold data_pkt gssinit_pkt
  split_ifs with h1 h2
  · simp [send_packet, State.set]
  · exact absurd h2 (by simpa using h.1)
  · rfl

theorem frame_refl (s : State) (L : List Nat) : Frame s s L :=
  ⟨rfl, fun _ _ => rfl, fun _ => ⟨rfl, rfl, rfl, Or.inl rfl⟩⟩

theorem bcast_visit_frame (e : Env) (pt : List Nat) (s : State) (cur : Nat) :
    Frame s (bcast_visit e pt s cur) [cur] := by
  by_cases h : sendable (s.conns cur)
  · rw [bcast_visit_send e pt s cur h]
    split_ifs
    · refine ⟨rfl, fun q hq => ?_, fun q => ?_⟩
      · have : q ≠ cur := by simpa using hq
        simp [State.set, Function.update, this]
      · by_cases hq : q = cur
        · subst hq; simp [State.set]
        · simp [State.set, Function.update, hq]
    · exact frame_refl _ _
  · rw [bcast_visit_skip e pt s cur h]
    exact frame_refl _ _

theorem frame_trans (s s1 s2 : State) (cur : Nat) (L : List Nat)
    (h1 : Frame s s1 [cur]) (h2 : Frame s1 s2 L) : Frame s s2 (cur :: L) := by
  obtain ⟨a1, b1, c1⟩ := h1
  obtain ⟨a2, b2, c2⟩ := h2
  refine ⟨a2.trans a1, fun q hq => ?_, fun q => ?_⟩
  · have hq1 : q ∉ [cur] := by
      intro h; exact hq (by simp at h; simp [h])
    have hq2 : q ∉ L := fun h => hq (List.mem_cons_of_mem _ h)
    rw [b2 q hq2, b1 q hq1]
  · obtain ⟨x1, x2, x3, x4⟩ := c1 q
    obtain ⟨y1, y2, y3, y4⟩ := c2 q
    refine ⟨y1.trans x1, y2.trans x2, y3.trans x3, ?_⟩
    rcases y4 with y | y
    · rcases x4 with x | x
      · exact Or.inl (y.trans x)
      · exact Or.inr (y.trans x)
    · exact Or.inr y

theorem bcast_chain_frame (e : Env) (pt : List Nat) :
    ∀ (L : List Nat) (s : State), Frame s (bcast_chain e pt s L) L := by
  intro L
  induction L with
  | nil => intro s; exact frame_refl _ _
  | cons cur rest ih =>
    intro s
    exact frame_trans _ _ _ _ _ (bcast_visit_frame e pt s cur) (ih _)

theorem bcast_chain_append (e : Env) (pt : List Nat) :
    ∀ (A B : List Nat) (s : State),
      bcast_chain e pt s (A ++ B) = bcast_chain e pt (bcast_chain e pt s A) B := by
  intro A
  induction A with
  | nil => intro B s; rfl
  | cons a A ih => intro B s; exact ih B _

/-- The outer loop visits the connections of `ether_all` one after the
other. -/
theorem bcast_buckets_eq (e : Env) (pt : List Nat) (s : State) :
    bcast_buckets e pt s = bcast_chain e pt s (ether_all s) := by
  unfold bcast_buckets ether_all
  generalize List.range 255 = is
  induction is generalizing s with
  | nil => rfl
  | cons i is ih =>
    rw [List.foldl_cons, ih, List.flatMap_cons, bcast_chain_append,
      (bcast_chain_frame e pt (s.clients_ether i) s).1]

theorem bcast_visit_net (e : Env) (pt : List Nat) (s : State) (cur : Nat) :
    (bcast_visit e pt s cur).net = s.net ++ bcast_out e pt s [cur] := by
  unfold bcast_out bcast_chain bcast_chain
  by_cases h : sendable (s.conns cur)
  · rw [bcast_visit_send e pt s cur h]
    split_ifs <;> simp
  · rw [bcast_visit_skip e pt s cur h]
    simp

theorem bcast_chain_net (e : Env) (pt : List Nat) :
    ∀ (L : List Nat) (s : State),
      (bcast_chain e pt s L).net = s.net ++ bcast_out e pt s L := by
  intro L
  induction L with
  | nil => intro s; simp [bcast_out, bcast_chain]
  | cons cur rest ih =>
    intro s
    have h1 := ih (bcast_visit e pt s cur)
    have h2 := bcast_visit_net e pt s cur
    unfold bcast_out
    show (bcast_chain e pt (bcast_visit e pt s cur) rest).net = _
    rw [show bcast_chain e pt s (cur :: rest) = bcast_chain e pt (bcast_visit e pt s cur) rest
      from rfl, h1, h2]
    simp

theorem bcast_out_cons (e : Env) (pt : List Nat) (s : State) (cur : Nat) (rest : List Nat) :
    bcast_out e pt s (cur :: rest) =
      bcast_out e pt s [cur] ++ bcast_out e pt (bcast_visit e pt s cur) rest := by
  have h1 := bcast_chain_net e pt rest (bcast_visit e pt s cur)
  have h2 := bcast_visit_net e pt s cur
  have h3 := bcast_chain_net e pt (cur :: rest) s
  rw [show bcast_chain e pt s (cur :: rest) = bcast_chain e pt (bcast_visit e pt s cur) rest
    from rfl, h1, h2, List.append_assoc] at h3
  exact (List.append_cancel_left h3).symm

theorem bcast_out_single (e : Env) (pt : List Nat) (s : State) (cur : Nat) :
    bcast_out e pt s [cur] =
      if sendable (s.conns cur) then
        data_pkt (s.conns cur) pt ::
          (if e.send_rc s.net.length (data_pkt (s.conns cur) pt) = -2
            then [gssinit_pkt (s.conns cur)] else [])
      else [] := by
  unfold bcast_out bcast_chain bcast_chain
  by_cases h : sendable (s.conns cur)
  · rw [bcast_visit_send e pt s cur h, if_pos h]
    split_ifs <;> simp
  · rw [bcast_visit_skip e pt s cur h, if_neg h]
    simp

theorem sendable_mono (s s' : State) (T : List Nat) (hf : Frame s s' T) (q : Nat)
    (h : sendable (s'.conns q)) : sendable (s.conns q) := by
  obtain ⟨_, _, x3, x4⟩ := hf.2.2 q
  unfold sendable at *
  rw [x3] at h
  rcases x4 with x | x
  · rw [x] at h; exact h
  · exact absurd x h.1

theorem sent_to_append (a : sockaddr_in) (i : Nat) (A B : List Sent) :
    sent_to a i (A ++ B) = sent_to a i A ++ sent_to a i B := by
  unfold sent_to
  exact List.filter_append _ _

theorem sent_to_single_other (e : Env) (pt : List Nat) (s : State) (cur : Nat)
    (a : sockaddr_in) (i : Nat)
    (h : sendable (s.conns cur) → ¬ ((s.conns cur).addr = a ∧ (s.conns cur).sid = i)) :
    sent_to a i (bcast_out e pt s [cur]) = [] := by
  rw [bcast_out_single]
  by_cases hs : sendable (s.conns cur)
  · have hk := h hs
    rw [if_pos hs]
    unfold sent_to data_pkt gssinit_pkt
    split_ifs <;> simp [List.filter, hk]
  · rw [if_neg hs]; rfl

theorem sent_to_single_self (e : Env) (pt : List Nat) (s : State) (cur : Nat)
    (hs : sendable (s.conns cur)) :
    sent_to (s.conns cur).addr (s.conns cur).sid (bcast_out e pt s [cur]) =
      data_pkt (s.conns cur) pt ::
        (if e.send_rc s.net.length (data_pkt (s.conns cur) pt) = -2
          then [gssinit_pkt (s.conns cur)] else []) := by
  rw [bcast_out_single, if_pos hs]
  unfold sent_to data_pkt gssinit_pkt
  split_ifs <;> simp [List.filter]

/-- Nothing goes to a peer none of whose connections passes the send test. -/
theorem sent_to_nil (e : Env) (pt : List Nat) (a : sockaddr_in) (i : Nat) :
    ∀ (L : List Nat) (s : State),
      (∀ q ∈ L, (s.conns q).addr = a → (s.conns q).sid = i → ¬ sendable (s.conns q)) →
      sent_to a i (bcast_out e pt s L) = [] := by
  intro L
  induction L with
  | nil => intro s _; simp [bcast_out, bcast_chain, sent_to]
  | cons cur rest ih =>
    intro s h
    rw [bcast_out_cons, sent_to_append,
      sent_to_single_other e pt s cur a i
        (fun hs hk => h cur (List.mem_cons_self _ _) hk.1 hk.2 hs),
      List.nil_append]
    apply ih
    intro q hq ha hi hs
    have hf := bcast_visit_frame e pt s cur
    obtain ⟨x1, x2, _, _⟩ := hf.2.2 q
    exact h q (List.mem_cons_of_mem _ hq) (x1 ▸ ha) (x2 ▸ hi) (sendable_mono _ _ _ hf q hs)

theorem distinct_keys_tail (s s' : State) (cur : Nat) (rest : List Nat)
    (hf : Frame s s' [cur]) (hd : distinct_keys s (cur :: rest)) : distinct_keys s' rest := by
  intro p hp q hq ha hi
  obtain ⟨p1, p2, _, _⟩ := hf.2.2 p
  obtain ⟨q1, q2, _, _⟩ := hf.2.2 q
  exact hd p (List.mem_cons_of_mem _ hp) q (List.mem_cons_of_mem _ hq)
    (by rw [← p1, ← q1]; exact ha) (by rw [← p2, ← q2]; exact hi)

/-- What one pass of the broadcast loop over `L` sends to a connection of `L`
that passes the send test, when `L` has no duplicates and its connections have
distinct peer address and session id: the `DATA` packet, as the `n`-th call of
`send_packet`, followed by `GSSINIT(empty)` exactly when that call returned
`-2`, in which case the context is absent afterwards. -/
theorem bcast_chain_sent (e : Env) (pt : List Nat) :
    ∀ (L : List Nat) (s : State) (p : Nat), p ∈ L → L.Nodup → distinct_keys s L →
      sendable (s.conns p) →
      ∃ n, s.net.length ≤ n ∧
        (bcast_chain e pt s L).net[n]? = some (data_pkt (s.conns p) pt) ∧
        sent_to (s.conns p).addr (s.conns p).sid (bcast_out e pt s L) =
          data_pkt (s.conns p) pt ::
            (if e.send_rc n (data_pkt (s.conns p) pt) = -2
              then [gssinit_pkt (s.conns p)] else []) ∧
        ((bcast_chain e pt s L).conns p).context =
          if e.send_rc n (data_pkt (s.conns p) pt) = -2 then none else (s.conns p).context := by
  intro L
  induction L with
  | nil => intro s p hp; exact absurd hp (List.not_mem_nil _)
  | cons cur rest ih =>
    intro s p hp hnd hdk hs
    have hf := bcast_visit_frame e pt s cur
    obtain ⟨hcur, hnd'⟩ := List.nodup_cons.1 hnd
    by_cases hpc : p = cur
    · subst hpc
      refine ⟨s.net.length, le_refl _, ?_, ?_, ?_⟩
      · rw [bcast_chain_net, bcast_out_cons, bcast_out_single, if_pos hs,
          List.getElem?_append_right (le_refl _)]
        simp
      · rw [bcast_out_cons, sent_to_append, sent_to_single_self e pt s p hs,
          sent_to_nil e pt _ _ rest (bcast_visit e pt s p), List.append_nil]
        intro q hq ha hi _
        obtain ⟨x1, x2, _, _⟩ := hf.2.2 q
        have : q = p := hdk q (List.mem_cons_of_mem _ hq) p (List.mem_cons_self _ _)
          (by rw [← x1]; exact ha) (by rw [← x2]; exact hi)
        exact hcur (this ▸ hq)
      · show ((bcast_chain e pt (bcast_visit e pt s p) rest).conns p).context = _
        rw [(bcast_chain_frame e pt rest (bcast_visit e pt s p)).2.1 p hcur,
          bcast_visit_send e pt s p hs]
        split_ifs <;> simp
    · have hpr : p ∈ rest := (List.mem_cons.1 hp).resolve_left hpc
      have hsame : (bcast_visit e pt s cur).conns p = s.conns p :=
        hf.2.1 p (by simpa using hpc)
      obtain ⟨n, hn1, hn2, hn3, hn4⟩ := ih (bcast_visit e pt s cur) p hpr hnd'
        (distinct_keys_tail s _ cur rest hf hdk) (by rw [hsame]; exact hs)
      rw [hsame] at hn2 hn3 hn4
      refine ⟨n, ?_, hn2, ?_, hn4⟩
      · rw [bcast_visit_net] at hn1
        simp at hn1
        omega
      · rw [bcast_out_cons, sent_to_append, hn3,
          sent_to_single_other e pt s cur _ _, List.nil_append]
        intro _ hk
        exact hpc (hdk p hp cur (List.mem_cons_self _ _) hk.1.symm hk.2.symm)

theorem data_only_sent (c : Conn) (pt : List Nat) (b : Prop) [Decidable b] :
    data_only (data_pkt c pt :: (if b then [gssinit_pkt c] else [])) = [data_pkt c pt] := by
  unfold data_only data_pkt gssinit_pkt
  split_ifs <;> simp [List.filter]

theorem gssinit_only_sent (c : Conn) (pt : List Nat) :
    gssinit_only (data_pkt c pt :: [gssinit_pkt c]) = [gssinit_pkt c] := by
  unfold gssinit_only data_pkt gssinit_pkt
  simp [List.filter]

theorem tapfd_read_cb_bcast_eq (e : Env) (s : State) (size : Int) (eagain : Bool)
    (framebuf : List Nat) (hsize : 0 ≤ size) (hdst : framebuf.take 6 = ether_broadcast) :
    tapfd_read_cb e s size eagain framebuf =
      bcast_chain e (framebuf.take size.toNat) s (ether_all s) := by
  unfold tapfd_read_cb
  have h1 : ¬ (size < 0 ∧ eagain = true) := by omega
  simp only [h1, if_false, hdst, if_true]
  exact bcast_buckets_eq _ _ _

/-! ## C2: the three rekey sites -/

theorem get_conn_sid (e : Env) (s : State) (peer : sockaddr_in) (sid : Nat) :
    ((get_conn e s peer sid).2.conns (get_conn e s peer sid).1).sid = sid := by
  unfold get_conn
  dsimp only
  cases hf : (s.clients_ip (e.hash_ip peer sid)).find?
      (fun p => (s.conns p).addr = peer ∧ (s.conns p).sid = sid) with
  | some p =>
    have := List.find?_some hf
    simp at this
    exact this.2
  | none => simp [new_conn]

/-- The broadcast site (lines 204-214). -/
theorem rekey_broadcast (e : Env) (s : State) (size : Int) (eagain : Bool)
    (framebuf : List Nat) (hsize : 0 ≤ size) (hdst : framebuf.take 6 = ether_broadcast)
    (hnd : (ether_all s).Nodup) (hdk : distinct_keys s (ether_all s))
    (p : Nat) (hp : p ∈ ether_all s) (hs : sendable (s.conns p)) :
    ∃ n out, (tapfd_read_cb e s size eagain framebuf).net = s.net ++ out ∧
      (tapfd_read_cb e s size eagain framebuf).net[n]? =
        some (data_pkt (s.conns p) (framebuf.take size.toNat)) ∧
      (e.send_rc n (data_pkt (s.conns p) (framebuf.take size.toNat)) = -2 →
        ((tapfd_read_cb e s size eagain framebuf).conns p).context = none ∧
        gssinit_only (sent_to (s.conns p).addr (s.conns p).sid out) =
          [gssinit_pkt (s.conns p)]) := by
  rw [tapfd_read_cb_bcast_eq e s size eagain framebuf hsize hdst]
  obtain ⟨n, -, h2, h3, h4⟩ := bcast_chain_sent e _ (ether_all s) s p hp hnd hdk hs
  refine ⟨n, _, bcast_chain_net e _ _ s, h2, fun hrc => ?_⟩
  rw [h4, h3, if_pos hrc, if_pos hrc]
  exact ⟨rfl, gssinit_only_sent _ _⟩

/-- The unicast site (lines 229-239). -/
theorem rekey_unicast (e : Env) (s : State) (size : Int) (eagain : Bool)
    (framebuf : List Nat) (client : Nat) (hsize : 0 ≤ size)
    (hdst : framebuf.take 6 ≠ ether_broadcast)
    (hfind : (s.clients_ether (e.hash (framebuf.take 6))).find?
      (fun p => (s.conns p).mac = framebuf.take 6) = some client)
    (hrc : e.send_rc s.net.length (data_pkt (s.conns client) (framebuf.take size.toNat)) = -2) :
    (tapfd_read_cb e s size eagain framebuf).net =
      s.net ++ [data_pkt (s.conns client) (framebuf.take size.toNat),
        gssinit_pkt (s.conns client)] ∧
    ((tapfd_read_cb e s size eagain framebuf).conns client).context = none := by
  unfold tapfd_read_cb
  have h1 : ¬ (size < 0 ∧ eagain = true) := by omega
  unfold data_pkt at hrc
  simp only [h1, if_false, hdst, hfind, send_packet_rc, hrc, if_true, send_packet_conns]
  unfold data_pkt gssinit_pkt
  split_ifs <;> simp_all [send_packet, State.set]

/-- The network site (lines 380-388). -/
theorem rekey_network (e : Env) (s : State) (r : Recv) (hrc : r.rc = -2) :
    (netfd_read_cb e s r).net =
      s.net ++ [gssinit_pkt ((get_conn e s r.peer r.sid).2.conns (get_conn e s r.peer r.sid).1)] ∧
    ((netfd_read_cb e s r).conns (get_conn e s r.peer r.sid).1).context = none ∧
    ((get_conn e s r.peer r.sid).2.conns (get_conn e s r.peer r.sid).1).sid = r.sid := by
  have hsid := get_conn_sid e s r.peer r.sid
  have hnet := get_conn_net e s r.peer r.sid
  unfold netfd_read_cb
  simp only [hrc, if_true]
  unfold gssinit_pkt
  generalize get_conn e s r.peer r.sid = g at hsid hnet ⊢
  split_ifs <;> simp_all [send_packet, State.set]

/-- C2: whenever the codec reports `rekey_needed` (return code `-2`) for a
connection, at each of the three sites, on return the context of the
connection is absent and exactly one `GSSINIT` packet without payload has
been sent to its peer address with its session id.
* Broadcast send, for an Ethernet index without duplicates whose connections
  differ in peer address or session id: a connection of the index that passes
  the send test gets its `DATA` packet as some `n`-th `send_packet` call, and
  if that call returned `-2`, its context is absent and of the packets the
  callback sent to it exactly one is a `GSSINIT`, the empty one.
* Unicast send: if the `DATA` call for the connection found by MAC returned
  `-2`, the callback sent that `DATA` packet and then `GSSINIT(empty)`, nothing
  else, and the context is absent.
* Network receive: if `recv_packet` returned `-2`, the callback sent
  `GSSINIT(empty)` to the connection `get_conn` yields, nothing else, the
  session id used is that of the connection, and the context is absent. -/
theorem rekey_needed_sites :
    (∀ (e : Env) (s : State) (size : Int) (eagain : Bool) (framebuf : List Nat),
      0 ≤ size → framebuf.take 6 = ether_broadcast →
      (ether_all s).Nodup → distinct_keys s (ether_all s) →
      ∀ p ∈ ether_all s, sendable (s.conns p) →
      ∃ n out, (tapfd_read_cb e s size eagain framebuf).net = s.net ++ out ∧
        (tapfd_read_cb e s size eagain framebuf).net[n]? =
          some (data_pkt (s.conns p) (framebuf.take size.toNat)) ∧
        (e.send_rc n (data_pkt (s.conns p) (framebuf.take size.toNat)) = -2 →
          ((tapfd_read_cb e s size eagain framebuf).conns p).context = none ∧
          gssinit_only (sent_to (s.conns p).addr (s.conns p).sid out) =
            [gssinit_pkt (s.conns p)])) ∧
    (∀ (e : Env) (s : State) (size : Int) (eagain : Bool) (framebuf : List Nat) (client : Nat),
      0 ≤ size → framebuf.take 6 ≠ ether_broadcast →
      (s.clients_ether (e.hash (framebuf.take 6))).find?
        (fun p => (s.conns p).mac = framebuf.take 6) = some client →
      e.send_rc s.net.length (data_pkt (s.conns client) (framebuf.take size.toNat)) = -2 →
      (tapfd_read_cb e s size eagain framebuf).net =
        s.net ++ [data_pkt (s.conns client) (framebuf.take size.toNat),
          gssinit_pkt (s.conns client)] ∧
      ((tapfd_read_cb e s size eagain framebuf).conns client).context = none) ∧
    (∀ (e : Env) (s : State) (r : Recv), r.rc = -2 →
      (netfd_read_cb e s r).net =
        s.net ++
          [gssinit_pkt ((get_conn e s r.peer r.sid).2.conns (get_conn e s r.peer r.sid).1)] ∧
      ((netfd_read_cb e s r).conns (get_conn e s r.peer r.sid).1).context = none ∧
      ((get_conn e s r.peer r.sid).2.conns (get_conn e s r.peer r.sid).1).sid = r.sid) :=
  ⟨fun e s size eagain framebuf h1 h2 h3 h4 p hp hs =>
      rekey_broadcast e s size eagain framebuf h1 h2 h3 h4 p hp hs,
    fun e s size eagain framebuf client h1 h2 h3 h4 =>
      rekey_unicast e s size eagain framebuf client h1 h2 h3 h4,
    fun e s r h => rekey_network e s r h⟩

/-- C2, witness: the three sites on the fixtures, with a codec that asks for
a rekey on the `DATA` packets of connection `0`. -/
theorem rekey_needed_sites_witness :
    ((0 : Int) ≤ 8 ∧ bcast_frame.take 6 = ether_broadcast ∧ sendable (st3.conns 0) ∧
      ∃ n out, (tapfd_read_cb env_rekey st3 8 false bcast_frame).net = st3.net ++ out ∧
        (tapfd_read_cb env_rekey st3 8 false bcast_frame).net[n]? =
          some (data_pkt (st3.conns 0) (bcast_frame.take (8 : Int).toNat)) ∧
        (env_rekey.send_rc n (data_pkt (st3.conns 0) (bcast_frame.take (8 : Int).toNat)) = -2 →
          ((tapfd_read_cb env_rekey st3 8 false bcast_frame).conns 0).context = none ∧
          gssinit_only (sent_to (st3.conns 0).addr (st3.conns 0).sid out) =
            [gssinit_pkt (st3.conns 0)])) ∧
    (ucast_frame.take 6 ≠ ether_broadcast ∧
      (tapfd_read_cb env_rekey st0 8 false ucast_frame).net =
        st0.net ++ [data_pkt (st0.conns 0) (ucast_frame.take (8 : Int).toNat),
          gssinit_pkt (st0.conns 0)] ∧
      ((tapfd_read_cb env_rekey st0 8 false ucast_frame).conns 0).context = none) ∧
    ((netfd_read_cb env0 st0 ⟨-2, [], .PAC_DATA, peer0, 4660⟩).net =
        st0.net ++ [gssinit_pkt ((get_conn env0 st0 peer0 4660).2.conns
          (get_conn env0 st0 peer0 4660).1)] ∧
      ((netfd_read_cb env0 st0 ⟨-2, [], .PAC_DATA, peer0, 4660⟩).conns
        (get_conn env0 st0 peer0 4660).1).context = none ∧
      ((get_conn env0 st0 peer0 4660).2.conns (get_conn env0 st0 peer0 4660).1).sid = 4660) :=
  ⟨⟨by decide, by decide, by decide,
      rekey_needed_sites.1 env_rekey st3 8 false bcast_frame (by decide) (by decide)
        (by decide) (by decide) 0 (by decide) (by decide)⟩,
    ⟨by decide,
      rekey_needed_sites.2.1 env_rekey st0 8 false ucast_frame 0 (by decide) (by decide)
        (by decide) (by decide)⟩,
    rekey_needed_sites.2.2 env0 st0 ⟨-2, [], .PAC_DATA, peer0, 4660⟩ rfl⟩

/-! ## C3: broadcast fan-out -/

/-- C3: for every Ethernet index without duplicates whose connections differ
in peer address or session id, and every frame read from the tap whose first
six bytes are `ff:ff:ff:ff:ff:ff`, whatever the codec returns for any
connection (rekey verdicts included): among the packets one call of
`tapfd_read_cb` hands to `send_packet`, every `Established` connection of the
index is sent exactly one `DATA` packet, carrying the frame, and a connection
that is `Handshaking` is sent no `DATA` packet. -/
theorem tapfd_read_cb_broadcast (e : Env) (s : State) (size : Int) (eagain : Bool)
    (framebuf : List Nat) (hsize : 0 ≤ size) (hdst : framebuf.take 6 = ether_broadcast)
    (hnd : (ether_all s).Nodup) (hdk : distinct_keys s (ether_all s)) :
    ∃ out, (tapfd_read_cb e s size eagain framebuf).net = s.net ++ out ∧
      ∀ p ∈ ether_all s,
        (Established (s.conns p) →
          data_only (sent_to (s.conns p).addr (s.conns p).sid out) =
            [data_pkt (s.conns p) (framebuf.take size.toNat)]) ∧
        (Handshaking (s.conns p) →
          data_only (sent_to (s.conns p).addr (s.conns p).sid out) = []) := by
  rw [tapfd_read_cb_bcast_eq e s size eagain framebuf hsize hdst]
  refine ⟨_, bcast_chain_net e _ _ s, fun p hp => ⟨fun hest => ?_, fun hhs => ?_⟩⟩
  · have hs : sendable (s.conns p) := by
      refine ⟨hest.2, ?_⟩
      rw [hest.1]; decide
    obtain ⟨n, -, -, h3, -⟩ := bcast_chain_sent e _ (ether_all s) s p hp hnd hdk hs
    rw [h3]
    exact data_only_sent _ _ _
  · rw [sent_to_nil e _ _ _ (ether_all s) s]
    · rfl
    · intro q hq ha hi hsq
      have : q = p := hdk q hq p hp ha hi
      subst this
      exact hsq.2 hhs

/-- C3, witness: the three-connection fixture, with a codec that asks for a
rekey on connection `0`. -/
theorem tapfd_read_cb_broadcast_witness :
    (0 : Int) ≤ 8 ∧ bcast_frame.take 6 = ether_broadcast ∧ (ether_all st3).Nodup ∧
    distinct_keys st3 (ether_all st3) ∧
    ∃ out, (tapfd_read_cb env_rekey st3 8 false bcast_frame).net = st3.net ++ out ∧
      ∀ p ∈ ether_all st3,
        (Established (st3.conns p) →
          data_only (sent_to (st3.conns p).addr (st3.conns p).sid out) =
            [data_pkt (st3.conns p) (bcast_frame.take (8 : Int).toNat)]) ∧
        (Handshaking (st3.conns p) →
          data_only (sent_to (st3.conns p).addr (st3.conns p).sid out) = []) :=
  ⟨by decide, by decide, by decide, by decide,
    tapfd_read_cb_broadcast env_rekey st3 8 false bcast_frame (by decide) (by decide)
      (by decide) (by decide)⟩

/-! ## C4 and C8: MAC learning in `handle_netinit` -/

theorem learn_conns_other (e : Env) (s : State) (client q : Nat) (macbuf : List Nat)
    (h : q ≠ client) : (handle_netinit_learn e s client macbuf).conns q = s.conns q := by
  unfold handle_netinit_learn
  split_ifs
  · simp [unlink_conn, State.set, Function.update, h]
  · rfl

theorem learn_clients_ip (e : Env) (s : State) (client : Nat) (macbuf : List Nat) :
    (handle_netinit_learn e s client macbuf).clients_ip = s.clients_ip := by
  unfold handle_netinit_learn
  split_ifs <;> rfl

theorem learn_changed (e : Env) (s : State) (client : Nat) (macbuf : List Nat)
    (hne : macbuf.take 6 ≠ (s.conns client).mac) :
    ((handle_netinit_learn e s client macbuf).conns client).mac = macbuf.take 6 ∧
    ∀ h, (handle_netinit_learn e s client macbuf).clients_ether h =
      if h = e.hash (macbuf.take 6)
        then client :: (s.clients_ether h).filter (fun p => p ≠ client)
        else (s.clients_ether h).filter (fun p => p ≠ client) := by
  unfold handle_netinit_learn
  rw [if_pos hne]
  refine ⟨by simp [unlink_conn, State.set], ?_⟩
  intro h
  by_cases hh : h = e.hash (macbuf.take 6)
  · simp [unlink_conn, State.set, Function.update, hh]
  · simp [unlink_conn, State.set, Function.update, hh]

theorem learn_same (e : Env) (s : State) (client : Nat) (macbuf : List Nat)
    (heq : macbuf.take 6 = (s.conns client).mac) :
    handle_netinit_learn e s client macbuf = s := by
  unfold handle_netinit_learn
  rw [if_neg (not_not.2 heq)]

theorem start_ok (e : Env) (s1 : State) (client : Nat) (hok : setup_ok e s1) :
    (handle_netinit_start e s1 client).clients_ether = s1.clients_ether ∧
    (handle_netinit_start e s1 client).clients_ip = s1.clients_ip ∧
    ∀ q, ((handle_netinit_start e s1 client).conns q).mac = (s1.conns q).mac := by
  unfold handle_netinit_start
  rcases hu : s1.netinit_util with _ | u
  · exact ⟨rfl, rfl, fun _ => rfl⟩
  · rcases hok with h | ⟨hp, hf⟩
    · rw [hu] at h; exact absurd h (by simp)
    · simp only [hp, hf, not_true_eq_false, if_false]
      refine ⟨rfl, rfl, fun q => ?_⟩
      by_cases hq : q = client
      · subst hq; simp
      · rw [set_conns_other _ _ _ _ hq]

theorem start_fail (e : Env) (s1 : State) (client : Nat) (hok : ¬ setup_ok e s1) :
    handle_netinit_start e s1 client =
      handle_shutdown (send_packet e s1
        ⟨(s1.conns client).addr, .PAC_SHUTDOWN, (s1.conns client).sid, none⟩).2 client := by
  unfold handle_netinit_start
  unfold setup_ok at hok
  rcases hu : s1.netinit_util with _ | u
  · exact absurd (Or.inl hu) hok
  · have hn : ¬ (e.pipe_ok = true ∧ e.fcntl_ok = true) := fun h => hok (Or.inr h)
    dsimp only
    cases hp : e.pipe_ok
    · rw [if_pos (by simp)]
    · rw [if_neg (by simp)]
      cases hf : e.fcntl_ok
      · rw [if_pos (by simp)]
      · exact absurd ⟨hp, hf⟩ hn

theorem start_mac (e : Env) (s1 : State) (client q : Nat) :
    ((handle_netinit_start e s1 client).conns q).mac = (s1.conns q).mac := by
  by_cases hok : setup_ok e s1
  · exact (start_ok e s1 client hok).2.2 q
  · rw [start_fail e s1 client hok]
    by_cases hq : q = client
    · subst hq; rw [handle_shutdown_mac]; rfl
    · rw [handle_shutdown_conns_other _ _ _ hq]; rfl

theorem start_ether_mem (e : Env) (s1 : State) (client q h : Nat)
    (hm : q ∈ (handle_netinit_start e s1 client).clients_ether h) :
    q ∈ s1.clients_ether h ∧ (setup_ok e s1 ∨ q ≠ client) := by
  by_cases hok : setup_ok e s1
  · rw [(start_ok e s1 client hok).1] at hm
    exact ⟨hm, Or.inl hok⟩
  · rw [start_fail e s1 client hok, handle_shutdown_clients_ether] at hm
    have := List.mem_filter.1 hm
    exact ⟨this.1, Or.inr (by simpa using this.2)⟩

theorem start_ip_mem (e : Env) (s1 : State) (client q h : Nat)
    (hm : q ∈ (handle_netinit_start e s1 client).clients_ip h) :
    q ∈ s1.clients_ip h ∧ (setup_ok e s1 ∨ q ≠ client) := by
  by_cases hok : setup_ok e s1
  · rw [(start_ok e s1 client hok).2.1] at hm
    exact ⟨hm, Or.inl hok⟩
  · rw [start_fail e s1 client hok, handle_shutdown_clients_ip] at hm
    have := List.mem_filter.1 hm
    exact ⟨this.1, Or.inr (by simpa using this.2)⟩

theorem start_ether_other (e : Env) (s1 : State) (client q h : Nat) (hq : q ≠ client) :
    q ∈ (handle_netinit_start e s1 client).clients_ether h ↔ q ∈ s1.clients_ether h := by
  by_cases hok : setup_ok e s1
  · rw [(start_ok e s1 client hok).1]
  · rw [start_fail e s1 client hok, handle_shutdown_clients_ether]
    exact mem_filter_ne _ _ _ hq

theorem learn_netinit_util (e : Env) (s : State) (client : Nat) (macbuf : List Nat) :
    (handle_netinit_learn e s client macbuf).netinit_util = s.netinit_util := by
  unfold handle_netinit_learn
  split_ifs <;> rfl

theorem learn_ether_other (e : Env) (s : State) (client q h : Nat) (macbuf : List Nat)
    (hq : q ≠ client) :
    q ∈ (handle_netinit_learn e s client macbuf).clients_ether h ↔ q ∈ s.clients_ether h := by
  by_cases hne : macbuf.take 6 = (s.conns client).mac
  · rw [learn_same e s client macbuf hne]
  · rw [(learn_changed e s client macbuf hne).2 h]
    split_ifs
    · rw [List.mem_cons, mem_filter_ne _ _ _ hq]
      exact ⟨fun h => h.resolve_left hq, Or.inr⟩
    · exact mem_filter_ne _ _ _ hq

theorem setup_ok_learn (e : Env) (s : State) (client : Nat) (macbuf : List Nat) :
    setup_ok e (handle_netinit_learn e s client macbuf) ↔ setup_ok e s := by
  unfold setup_ok
  rw [learn_netinit_util]

theorem handle_netinit_run (e : Env) (s : State) (client : Nat) (macbuf : List Nat)
    (hchild : (s.conns client).nichild = false) (hlen : 6 ≤ macbuf.length) :
    handle_netinit e s client macbuf =
      handle_netinit_start e (handle_netinit_learn e s client macbuf) client := by
  unfold handle_netinit
  rw [if_neg (by simp [hchild]), if_neg (by omega)]

/-- C4, counterexample: a helper is configured and `pipe` fails. The fixture
connection satisfies the Ethernet-index invariant, no helper is running, the
payload carries a new MAC, and after `handle_netinit` the connection is not
in the bucket of the new MAC. -/
theorem handle_netinit_pipe_failure_unlinks :
    EtherInv env0 st_util ∧
    (st_util.conns 0).nichild = false ∧ 6 ≤ new_mac_payload.length ∧
    new_mac_payload.take 6 ≠ (st_util.conns 0).mac ∧
    0 ∉ (handle_netinit env0 st_util 0 new_mac_payload).clients_ether
      (env0.hash (new_mac_payload.take 6)) := by
  refine ⟨?_, by decide, by decide, by decide, by decide⟩
  intro q hq _
  have hq0 : q = 0 := by
    obtain ⟨h, hq⟩ := hq
    have hb : st_util.clients_ip h = if h = env0.hash_ip peer0 4660 then [0] else [] := rfl
    rw [hb] at hq
    split_ifs at hq
    · simpa using hq
    · simp at hq
  subst hq0
  refine ⟨by decide, ?_⟩
  intro h hh
  have hb : st_util.clients_ether h = if h = env0.hash conn0.mac then [0] else [] := rfl
  have hh2 : ¬ h = env0.hash conn0.mac := hh
  rw [hb, if_neg hh2]
  simp

/-- C4, amended: for every connection without a running helper and every
`NETINIT` payload of at least 6 bytes whose first 6 bytes `m` differ from the
stored MAC: when no helper is configured or `pipe` and `fcntl` succeed, after
`handle_netinit` the MAC is `m`, the connection is in Ethernet bucket
`hash(m)`, exactly once, and in no other Ethernet bucket; when the pipe set-up
fails the connection is freed and is in no bucket of either index. In both
cases the Ethernet-index invariant is preserved. -/
theorem handle_netinit_relearn (e : Env) (s : State) (client : Nat) (macbuf : List Nat)
    (hchild : (s.conns client).nichild = false) (hlen : 6 ≤ macbuf.length)
    (hne : macbuf.take 6 ≠ (s.conns client).mac) :
    (setup_ok e s →
      ((handle_netinit e s client macbuf).conns client).mac = macbuf.take 6 ∧
      client ∈ (handle_netinit e s client macbuf).clients_ether (e.hash (macbuf.take 6)) ∧
      ((handle_netinit e s client macbuf).clients_ether (e.hash (macbuf.take 6))).count client
        = 1 ∧
      (∀ h, h ≠ e.hash (macbuf.take 6) →
        client ∉ (handle_netinit e s client macbuf).clients_ether h)) ∧
    (¬ setup_ok e s →
      ((handle_netinit e s client macbuf).conns client).freed = true ∧
      (∀ h, client ∉ (handle_netinit e s client macbuf).clients_ether h) ∧
      (∀ h, client ∉ (handle_netinit e s client macbuf).clients_ip h)) ∧
    (EtherInv e s → EtherInv e (handle_netinit e s client macbuf)) := by
  rw [handle_netinit_run e s client macbuf hchild hlen]
  obtain ⟨hmac, heth⟩ := learn_changed e s client macbuf hne
  have hin : client ∈ (handle_netinit_learn e s client macbuf).clients_ether
      (e.hash (macbuf.take 6)) := by
    rw [heth, if_pos rfl]; exact List.mem_cons_self _ _
  have hout : ∀ h, h ≠ e.hash (macbuf.take 6) →
      client ∉ (handle_netinit_learn e s client macbuf).clients_ether h := by
    intro h hh
    rw [heth, if_neg hh]
    exact not_mem_filter_ne _ _
  refine ⟨fun hok => ?_, fun hno => ?_, fun hinv => ?_⟩
  · have hok1 := (setup_ok_learn e s client macbuf).2 hok
    obtain ⟨he, -, hm⟩ := start_ok e _ client hok1
    rw [he, hm]
    refine ⟨hmac, hin, ?_, hout⟩
    rw [heth, if_pos rfl, List.count_cons_self,
      List.count_eq_zero_of_not_mem (not_mem_filter_ne _ _)]
  · have hno1 : ¬ setup_ok e (handle_netinit_learn e s client macbuf) :=
      fun h => hno ((setup_ok_learn e s client macbuf).1 h)
    rw [start_fail e _ client hno1]
    refine ⟨handle_shutdown_freed _ _, fun h => ?_, fun h => ?_⟩
    · rw [handle_shutdown_clients_ether]; exact not_mem_filter_ne _ _
    · rw [handle_shutdown_clients_ip]; exact not_mem_filter_ne _ _
  · intro q hq hqmac
    obtain ⟨h, hq⟩ := hq
    obtain ⟨hqip, hcase⟩ := start_ip_mem e _ client q h hq
    rw [learn_clients_ip] at hqip
    rw [start_mac] at hqmac ⊢
    by_cases hqc : q = client
    · subst hqc
      have hok1 : setup_ok e (handle_netinit_learn e s q macbuf) := hcase.resolve_right (by simp)
      rw [(start_ok e _ q hok1).1, hmac]
      exact ⟨hin, hout⟩
    · rw [learn_conns_other e s client q macbuf hqc] at hqmac ⊢
      obtain ⟨h1, h2⟩ := hinv q ⟨h, hqip⟩ hqmac
      refine ⟨?_, fun h' hh' => ?_⟩
      · rw [start_ether_other e _ client q _ hqc, learn_ether_other e s client q _ macbuf hqc]
        exact h1
      · rw [start_ether_other e _ client q _ hqc, learn_ether_other e s client q _ macbuf hqc]
        exact h2 h' hh'

/-- C4, witness: no helper configured, the fixture connection learns a new
MAC. -/
theorem handle_netinit_relearn_witness :
    (st0.conns 0).nichild = false ∧ 6 ≤ new_mac_payload.length ∧
    new_mac_payload.take 6 ≠ (st0.conns 0).mac ∧ setup_ok env0 st0 ∧
    ((handle_netinit env0 st0 0 new_mac_payload).conns 0).mac = new_mac_payload.take 6 ∧
    0 ∈ (handle_netinit env0 st0 0 new_mac_payload).clients_ether
      (env0.hash (new_mac_payload.take 6)) :=
  ⟨by decide, by decide, by decide, Or.inl rfl,
    ((handle_netinit_relearn env0 st0 0 new_mac_payload (by decide) (by decide)
      (by decide)).1 (Or.inl rfl)).1,
    ((handle_netinit_relearn env0 st0 0 new_mac_payload (by decide) (by decide)
      (by decide)).1 (Or.inl rfl)).2.1⟩

/-! ## C8: the broadcast MAC and the Ethernet index -/

/-- C8, counterexample: starting from the fixture state, whose Ethernet index
holds no broadcast MAC, a `NETINIT` payload of six `ff` bytes makes
`handle_netinit` store the connection in the Ethernet index with the
broadcast MAC. -/
theorem handle_netinit_stores_broadcast :
    NoBroadcast st0 ∧ ¬ NoBroadcast (handle_netinit env0 st0 0 ether_broadcast) := by
  constructor
  · intro h q _
    show conn0.mac ≠ ether_broadcast
    decide
  · intro hnb
    exact hnb (env0.hash ether_broadcast) 0 (by decide) (by decide)

/-- C8, amended: starting from an Ethernet index that holds no connection
with the broadcast MAC, for every `NETINIT` payload whose first six bytes are
not `ff:ff:ff:ff:ff:ff`, `handle_netinit` leaves the index with no connection
whose MAC is the broadcast MAC. -/
theorem handle_netinit_no_broadcast (e : Env) (s : State) (client : Nat) (macbuf : List Nat)
    (hnb : NoBroadcast s) (hmac : macbuf.take 6 ≠ ether_broadcast) :
    NoBroadcast (handle_netinit e s client macbuf) := by
  by_cases hchild : (s.conns client).nichild = true
  · unfold handle_netinit; rw [if_pos hchild]; exact hnb
  by_cases hlen : macbuf.length < 6
  · unfold handle_netinit; rw [if_neg hchild, if_pos hlen]; exact hnb
  rw [handle_netinit_run e s client macbuf (by simpa using hchild) (by omega)]
  intro h q hq
  rw [start_mac]
  obtain ⟨hq1, -⟩ := start_ether_mem e _ client q h hq
  by_cases hqc : q = client
  · subst hqc
    by_cases hne : macbuf.take 6 = (s.conns q).mac
    · rw [learn_same e s q macbuf hne] at hq1 ⊢
      exact hnb h q hq1
    · rw [(learn_changed e s q macbuf hne).1]
      exact hmac
  · rw [learn_conns_other e s client q macbuf hqc]
    exact hnb h q ((learn_ether_other e s client q h macbuf hqc).1 hq1)

/-- C8, witness: the fixture connection learns a MAC that is not the
broadcast MAC. -/
theorem handle_netinit_no_broadcast_witness :
    new_mac_payload.take 6 ≠ ether_broadcast ∧
    NoBroadcast (handle_netinit env0 st0 0 new_mac_payload) :=
  ⟨by decide,
    handle_netinit_no_broadcast env0 st0 0 new_mac_payload
      (fun _ _ _ => show conn0.mac ≠ ether_broadcast by decide) (by decide)⟩

/-! ## C5: soft expiry in `conn_timeout_cb` -/

/-- C5, counterexample: the timer of an `Established` connection fires,
`gss_context_time` reports `GSS_S_CONTEXT_EXPIRED`, `killontimeout` is off;
after `conn_timeout_cb` the context is still present, so the connection is
not `Fresh`. -/
theorem conn_timeout_cb_soft_keeps_context :
    (env0.context_time (st0.conns 0).context).1 = GSS_S_CONTEXT_EXPIRED ∧
    st0.killontimeout = false ∧
    ((conn_timeout_cb env0 st0 0).conns 0).context = some 1 ∧
    ¬ ((conn_timeout_cb env0 st0 0).conns 0).context = none := by
  decide

/-- C5, amended: when the timer fires with `expired` or `credentials_expired`
and `killontimeout` is off, `conn_timeout_cb` sends `GSSINIT(empty)` to the
peer and stops the timer; the context and `gssstate` are left as they were
(the context is deleted later, by `handle_gssinit`), the connection is not
freed and both indexes are unchanged. -/
theorem conn_timeout_cb_soft (e : Env) (s : State) (c : Nat)
    (hexp : (e.context_time (s.conns c).context).1 = GSS_S_CONTEXT_EXPIRED ∨
      (e.context_time (s.conns c).context).1 = GSS_S_CREDENTIALS_EXPIRED)
    (hkill : s.killontimeout = false) :
    (conn_timeout_cb e s c).net =
        s.net ++ [⟨(s.conns c).addr, .PAC_GSSINIT, (s.conns c).sid, none⟩] ∧
    (conn_timeout_cb e s c).conns c = { s.conns c with conntimeout := false } ∧
    ((conn_timeout_cb e s c).conns c).context = (s.conns c).context ∧
    ((conn_timeout_cb e s c).conns c).gssstate = (s.conns c).gssstate ∧
    ((conn_timeout_cb e s c).conns c).freed = (s.conns c).freed ∧
    (∀ q, q ≠ c → (conn_timeout_cb e s c).conns q = s.conns q) ∧
    (conn_timeout_cb e s c).clients_ip = s.clients_ip ∧
    (conn_timeout_cb e s c).clients_ether = s.clients_ether := by
  have hne : ¬ ((e.context_time (s.conns c).context).1 = GSS_S_COMPLETE ∧
      (e.context_time (s.conns c).context).2 > 0) := by
    rintro ⟨h0, -⟩
    rcases hexp with h | h <;> rw [h0] at h <;> revert h <;> decide
  have hs : conn_timeout_cb e s c =
      ((send_packet e s ⟨(s.conns c).addr, .PAC_GSSINIT, (s.conns c).sid, none⟩).2).set c
        { s.conns c with conntimeout := false } := by
    unfold conn_timeout_cb
    simp only [hne, if_false, hexp, if_true, hkill, send_packet_conns]
    rfl
  rw [hs]
  refine ⟨by simp, by simp, by simp, by simp, by simp, ?_, by simp, by simp⟩
  intro q hq
  rw [set_conns_other _ _ _ _ hq]
  simp

/-- C5, witness: the amended statement at the fixture connection. -/
theorem conn_timeout_cb_soft_witness :
    st0.killontimeout = false ∧
    (conn_timeout_cb env0 st0 0).net = st0.net ++ [⟨peer0, .PAC_GSSINIT, 4660, none⟩] ∧
    ((conn_timeout_cb env0 st0 0).conns 0).context = (st0.conns 0).context :=
  ⟨by decide,
    (conn_timeout_cb_soft env0 st0 0 (Or.inl (by decide)) (by decide)).1,
    (conn_timeout_cb_soft env0 st0 0 (Or.inl (by decide)) (by decide)).2.2.1⟩

/-! ## C6: hard failure of `gss_accept_sec_context` in `handle_gssinit` -/

/-- C6, counterexample: the authenticator rejects the token of the fixture
connection with `GSS_S_FAILURE`; `handle_gssinit` sends nothing (no
`SHUTDOWN`), and the connection stays linked in both indexes and is not
freed. -/
theorem handle_gssinit_failure_keeps_conn :
    (env0.accept (accept_context (st0.conns 0)) [1, 2]).maj ≠ GSS_S_COMPLETE ∧
    (env0.accept (accept_context (st0.conns 0)) [1, 2]).maj ≠ GSS_S_CONTINUE_NEEDED ∧
    (handle_gssinit env0 st0 0 [1, 2]).net = [] ∧
    0 ∈ (handle_gssinit env0 st0 0 [1, 2]).clients_ip (env0.hash_ip peer0 4660) ∧
    0 ∈ (handle_gssinit env0 st0 0 [1, 2]).clients_ether (env0.hash conn0.mac) ∧
    ((handle_gssinit env0 st0 0 [1, 2]).conns 0).freed = false := by
  decide

/-- C6, amended: when `gss_accept_sec_context` returns a hard failure (neither
complete nor continue), `handle_gssinit` sends no packet and keeps the
connection: both indexes are unchanged and the connection is not freed; its
timer is stopped, its context is what the authenticator left (a complete
context was deleted before the call), every other field and every other
connection is untouched. -/
theorem handle_gssinit_hard_failure (e : Env) (s : State) (client : Nat) (intoken : List Nat)
    (hfail : (e.accept (accept_context (s.conns client)) intoken).maj ≠ GSS_S_COMPLETE ∧
      (e.accept (accept_context (s.conns client)) intoken).maj ≠ GSS_S_CONTINUE_NEEDED) :
    (handle_gssinit e s client intoken).net = s.net ∧
    (handle_gssinit e s client intoken).clients_ip = s.clients_ip ∧
    (handle_gssinit e s client intoken).clients_ether = s.clients_ether ∧
    (handle_gssinit e s client intoken).conns client =
      { s.conns client with
        context := (e.accept (accept_context (s.conns client)) intoken).context
        conntimeout := false } ∧
    ((handle_gssinit e s client intoken).conns client).freed = (s.conns client).freed ∧
    (∀ q, q ≠ client → (handle_gssinit e s client intoken).conns q = s.conns q) := by
  have hs : handle_gssinit e s client intoken =
      s.set client { s.conns client with
        context := (e.accept (accept_context (s.conns client)) intoken).context
        conntimeout := false } := by
    unfold handle_gssinit accept_context at *
    rcases hc : (s.conns client).context with _ | ctx <;>
    by_cases hg : (s.conns client).gssstate = GSS_S_COMPLETE <;>
    by_cases ht : (s.conns client).conntimeout = true <;>
    simp [hc, hg, ht, State.set] at hfail ⊢ <;>
    simp [hfail]
  rw [hs]
  refine ⟨by simp, by simp, by simp, by simp, by simp, ?_⟩
  intro q hq
  exact set_conns_other _ _ _ _ hq

/-- C6, witness: the amended statement at the fixture connection. -/
theorem handle_gssinit_hard_failure_witness :
    (env0.accept (accept_context (st0.conns 0)) [1, 2]).maj ≠ GSS_S_COMPLETE ∧
    (handle_gssinit env0 st0 0 [1, 2]).net = st0.net ∧
    (handle_gssinit env0 st0 0 [1, 2]).clients_ip = st0.clients_ip :=
  ⟨by decide,
    (handle_gssinit_hard_failure env0 st0 0 [1, 2] ⟨by decide, by decide⟩).1,
    (handle_gssinit_hard_failure env0 st0 0 [1, 2] ⟨by decide, by decide⟩).2.1⟩

/-! ## C7: `netinit_child_cb` -/

/-- The state after the last drain: only the netinit fields of the connection
have changed, the buffer is the drained one and both watchers are stopped. -/
theorem netinit_child_drain_spec (e : Env) (s : State) (c i : Nat) (buf : List Nat)
    (hbuf : (s.conns c).ni_value = some buf) :
    ∃ value len s3, drained_buffer e (s.conns c) i = some (value, len) ∧
      netinit_child_drain e s c i = some s3 ∧
      s3.net = s.net ∧ s3.clients_ip = s.clients_ip ∧ s3.clients_ether = s.clients_ether ∧
      (s3.conns c).addr = (s.conns c).addr ∧ (s3.conns c).sid = (s.conns c).sid ∧
      (s3.conns c).freed = (s.conns c).freed ∧
      (s3.conns c).ni_value = some value ∧ (s3.conns c).ni_length = len ∧
      (s3.conns c).nipipe = false ∧ (s3.conns c).nichild = false := by
  unfold drained_buffer netinit_child_drain
  simp only [hbuf, set_conns_self]
  by_cases hp : (s.conns c).nipipe = true
  · obtain ⟨r, hr⟩ := netinit_run_total e i buf (s.conns c).ni_length
    simp only [hp, if_true, hr, Option.map_some']
    unfold netinit_read_cb
    simp only [set_conns_self, hbuf, hr]
    refine ⟨r.value, r.length, _, rfl, rfl, ?_⟩
    by_cases hfull : r.length = NETINIT_BUFLEN <;> simp [hfull]
  · simp only [hp]
    refine ⟨buf, (s.conns c).ni_length, _, rfl, rfl, ?_⟩
    simp at hp
    simp [hp, hbuf]

/-- C7: when the helper of a connection that has a netinit buffer exits,
`netinit_child_cb` returns, and with `value`, `len` the buffer and its length
after the last drain of the pipe: on a non-zero exit status it sends exactly
one packet, `SHUTDOWN` without payload, frees the connection and leaves it in
no chain of either index; on exit status zero it sends exactly one packet,
`NETINIT` carrying `value` (no payload when `len = 0`), keeps the connection
(not freed, both indexes unchanged) and leaves `ni.value` absent, `ni.length`
zero, and the pipe reader and the child watcher stopped. -/
theorem netinit_child_cb_exit (e : Env) (s : State) (c i : Nat) (rstatus : Int)
    (buf : List Nat) (hbuf : (s.conns c).ni_value = some buf) :
    ∃ value len s', drained_buffer e (s.conns c) i = some (value, len) ∧
      netinit_child_cb e s c rstatus i = some s' ∧
      (rstatus ≠ 0 →
        s'.net = s.net ++ [⟨(s.conns c).addr, .PAC_SHUTDOWN, (s.conns c).sid, none⟩] ∧
        (s'.conns c).freed = true ∧
        (∀ h, c ∉ s'.clients_ip h) ∧ (∀ h, c ∉ s'.clients_ether h) ∧
        (s'.conns c).nipipe = false ∧ (s'.conns c).nichild = false) ∧
      (rstatus = 0 →
        s'.net = s.net ++ [⟨(s.conns c).addr, .PAC_NETINIT, (s.conns c).sid,
          if len > 0 then some value else none⟩] ∧
        (s'.conns c).freed = (s.conns c).freed ∧
        s'.clients_ip = s.clients_ip ∧ s'.clients_ether = s.clients_ether ∧
        (s'.conns c).ni_value = none ∧ (s'.conns c).ni_length = 0 ∧
        (s'.conns c).nipipe = false ∧ (s'.conns c).nichild = false) := by
  obtain ⟨value, len, s3, hd, hs3, hnet, hip, heth, haddr, hsid, hfreed, hval, hlen, hpipe, hchild⟩ :=
    netinit_child_drain_spec e s c i buf hbuf
  unfold netinit_child_cb
  rw [hs3]
  dsimp only
  by_cases hr : rstatus = 0
  · rw [if_neg (not_not.2 hr)]
    refine ⟨value, len, _, hd, rfl, fun h => absurd hr h, fun _ => ?_⟩
    simp [hnet, hip, heth, haddr, hsid, hfreed, hval, hlen, hpipe, hchild]
  · rw [if_pos hr]
    refine ⟨value, len, _, hd, rfl, fun _ => ?_, fun h => absurd h hr⟩
    refine ⟨?_, handle_shutdown_freed _ _, ?_, ?_, ?_⟩
    · rw [handle_shutdown_net]
      simp [hnet, haddr, hsid]
    · intro h
      rw [handle_shutdown_clients_ip]
      exact not_mem_filter_ne _ _
    · intro h
      rw [handle_shutdown_clients_ether]
      exact not_mem_filter_ne _ _
    · exact handle_shutdown_watchers _ _ (Or.inl (by simp [hval]))

/-- C7, witness: the helper of the fixture connection exits with status 1. -/
theorem netinit_child_cb_exit_witness :
    (st_helper.conns 0).ni_value = some [] ∧
    ∃ value len s', drained_buffer env_pipe (st_helper.conns 0) 0 = some (value, len) ∧
      netinit_child_cb env_pipe st_helper 0 1 0 = some s' ∧
      ((1 : Int) ≠ 0 →
        s'.net = st_helper.net ++
          [⟨(st_helper.conns 0).addr, .PAC_SHUTDOWN, (st_helper.conns 0).sid, none⟩] ∧
        (s'.conns 0).freed = true ∧
        (∀ h, 0 ∉ s'.clients_ip h) ∧ (∀ h, 0 ∉ s'.clients_ether h) ∧
        (s'.conns 0).nipipe = false ∧ (s'.conns 0).nichild = false) :=
  ⟨by decide,
    (netinit_child_cb_exit env_pipe st_helper 0 0 1 [] (by decide)).imp fun _ h =>
      h.imp fun _ h => h.imp fun _ h => ⟨h.1, h.2.1, h.2.2.1⟩⟩

/-! ## C9: the bounded read loop of `netinit_read_cb` -/

theorem netinit_loop_spec (e : Env)
    (hrd : ∀ j n bs, e.rd j n = some bs → (bs.length : Int) ≤ n) :
    ∀ (fuel i : Nat) (tocopy : Int) (value : List Nat) (length : Nat) (trace : List (Nat × Int)),
      length ≤ NETINIT_BUFLEN → NETINIT_BUFLEN < fuel + length →
      (length = 0 → tocopy = NETINIT_BUFLEN) →
      (∀ q ∈ trace, request_ok q) →
      ∃ r, netinit_loop e fuel i tocopy value length trace = some r ∧
        (∀ q ∈ r.trace, request_ok q) ∧ r.length ≤ NETINIT_BUFLEN ∧
        (r.last_r ≤ 0 ∨ r.length = NETINIT_BUFLEN) ∧
        (value.length = length → r.value.length = r.length) := by
  intro fuel
  induction fuel with
  | zero =>
    intro i tocopy value length trace h1 h2
    omega
  | succ fuel ih =>
    intro i tocopy value length trace h1 h2 h3 h4
    have htc : (if length ≠ 0 then (NETINIT_BUFLEN : Int) - length else tocopy)
        = (NETINIT_BUFLEN : Int) - length := by
      by_cases h0 : length = 0
      · simp [h0, h3 h0]
      · simp [h0]
    have hreq : request_ok (length, (NETINIT_BUFLEN : Int) - length) := by
      refine ⟨h1, ?_, le_refl _⟩
      show (0 : Int) ≤ (NETINIT_BUFLEN : Int) - (length : Int)
      omega
    have htr : ∀ q ∈ trace ++ [(length, (NETINIT_BUFLEN : Int) - length)], request_ok q := by
      intro q hq
      rcases List.mem_append.1 hq with h | h
      · exact h4 q h
      · rw [List.mem_singleton.1 h]; exact hreq
    unfold netinit_loop
    simp only [htc]
    cases hres : e.rd i ((NETINIT_BUFLEN : Int) - length) with
    | none =>
      have hc : ¬ ((-1 : Int) > 0 ∧ length < NETINIT_BUFLEN) := by omega
      simp only [hc, if_false]
      exact ⟨_, rfl, htr, by simpa using h1, Or.inl (by simp), by simp⟩
    | some bs =>
      have hb := hrd _ _ _ hres
      simp only [Int.toNat_ofNat]
      by_cases hpos : bs.length = 0
      · have hc : ¬ (((bs.length : Nat) : Int) > 0) := by omega
        simp only [hc, false_and, if_false]
        refine ⟨_, rfl, htr, h1, Or.inl (by simp [hpos]), ?_⟩
        have : bs = [] := List.length_eq_zero.1 hpos
        simp [this]
      · have hp : ((bs.length : Nat) : Int) > 0 := by omega
        have hle : length + bs.length ≤ NETINIT_BUFLEN := by omega
        simp only [hp, if_true, true_and]
        by_cases hfull : length + bs.length < NETINIT_BUFLEN
        · rw [if_pos hfull]
          obtain ⟨r, hr, p1, p2, p3, p4⟩ := ih (i + 1) ((NETINIT_BUFLEN : Int) - length)
            (value ++ bs) (length + bs.length)
            (trace ++ [(length, (NETINIT_BUFLEN : Int) - length)])
            hle (by omega) (by omega) htr
          exact ⟨r, hr, p1, p2, p3, fun hv => p4 (by simp [hv])⟩
        · rw [if_neg hfull]
          exact ⟨_, rfl, htr, hle, Or.inr (by simp only; omega), fun hv => by simp [hv]⟩

/-- C9: for every buffer length up to 4096 and every pipe whose `read` never
returns more than it was asked for, the loop of `netinit_read_cb` ends (the
fuel is never exhausted), every `read` asks for a non-negative number of bytes
that is at most 4096 minus the current length, the final length is at most
4096 (and is the number of buffered bytes), the loop ends after a non-positive
`read` or at length 4096, and `netinit_read_cb` stores the result and leaves
the pipe reader active exactly when it was active and the length is not
4096. -/
theorem netinit_read_cb_bounded (e : Env) (s : State) (c i : Nat) (buf : List Nat)
    (hbuf : (s.conns c).ni_value = some buf)
    (hlen : (s.conns c).ni_length ≤ NETINIT_BUFLEN)
    (hrd : ∀ j n bs, e.rd j n = some bs → (bs.length : Int) ≤ n) :
    ∃ r, netinit_run e i buf (s.conns c).ni_length = some r ∧
      (∀ q ∈ r.trace, request_ok q) ∧
      r.length ≤ NETINIT_BUFLEN ∧
      (buf.length = (s.conns c).ni_length → r.value.length = r.length) ∧
      (r.last_r ≤ 0 ∨ r.length = NETINIT_BUFLEN) ∧
      ∃ s', netinit_read_cb e s c i = some s' ∧
        (s'.conns c).ni_length = r.length ∧
        (s'.conns c).ni_value = some r.value ∧
        ((s'.conns c).nipipe = true ↔
          ((s.conns c).nipipe = true ∧ r.length ≠ NETINIT_BUFLEN)) := by
  obtain ⟨r, hr, p1, p2, p3, p4⟩ :=
    netinit_loop_spec e hrd (NETINIT_BUFLEN + 1) i NETINIT_BUFLEN buf (s.conns c).ni_length []
      hlen (by omega) (fun _ => rfl) (by simp)
  refine ⟨r, hr, p1, p2, p4, p3, ?_⟩
  unfold netinit_read_cb
  unfold netinit_run at *
  simp only [hbuf, hr]
  refine ⟨_, rfl, ?_⟩
  by_cases hfull : r.length = NETINIT_BUFLEN <;> simp [hfull]

/-- C9, witness: a pipe that delivers up to three bytes and then nothing. -/
theorem netinit_read_cb_bounded_witness :
    (st_helper.conns 0).ni_length ≤ NETINIT_BUFLEN ∧
    ∃ r, netinit_run env_pipe 0 [] (st_helper.conns 0).ni_length = some r ∧
      r.length ≤ NETINIT_BUFLEN :=
  ⟨by decide,
    (netinit_read_cb_bounded env_pipe st_helper 0 0 [] (by decide) (by decide)
      (by
        intro j n bs h
        simp only [env_pipe] at h
        split at h
        · rename_i hc
          have hb : bs = List.replicate (min 3 n.toNat) 7 := by
            injection h with h; exact h.symm
          rw [hb, List.length_replicate]
          omega
        · exact absurd h (by simp))).imp
      (fun _ h => ⟨h.1, h.2.2.1⟩)⟩

/-! ## C10: `argv[0]` of the helper -/

theorem char_at_mid (pre suf : List Char) (ch : Char) :
    char_at (pre ++ ch :: suf) (pre.length : Int) = some ch := by
  unfold char_at
  have h1 : ¬ ((pre.length : Int) < 0) := by omega
  have h2 : ¬ ((pre.length : Int).toNat = (pre ++ ch :: suf).length) := by
    simp
  rw [if_neg h1, if_neg h2, Int.toNat_ofNat, List.get?_eq_getElem?,
    List.getElem?_append_right (le_refl _)]
  simp

/-- The backward scan started on the last character of a non-empty prefix
`pre`, when no `'/'` follows that prefix: it stops on a character of the
string, either on the last `'/'` or on the first character of a string
without `'/'`. -/
theorem scan_back_spec :
    ∀ (pre suf : List Char) (fuel : Nat), '/' ∉ suf → pre ≠ [] → pre.length ≤ fuel →
      ∃ i ch, scan_back (pre ++ suf) fuel ((pre.length : Int) - 1) = some i ∧
        char_at (pre ++ suf) i = some ch ∧
        ((ch ≠ '/' ∧ i = 0 ∧ '/' ∉ pre ++ suf) ∨
          (ch = '/' ∧ 0 ≤ i ∧ ∃ p name, pre ++ suf = p ++ '/' :: name ∧
            (pre ++ suf).drop (i + 1).toNat = name ∧ '/' ∉ name)) := by
  intro pre
  induction pre using List.reverseRecOn with
  | nil => intro suf fuel _ h; exact absurd rfl h
  | append_singleton pre ch ih =>
    intro suf fuel hs _ hf
    obtain ⟨f, rfl⟩ : ∃ f, fuel = f + 1 := ⟨fuel - 1, by simp at hf; omega⟩
    have hidx : (((pre ++ [ch]).length : Nat) : Int) - 1 = (pre.length : Int) := by
      simp
    have hutil : pre ++ [ch] ++ suf = pre ++ ch :: suf := by simp
    rw [hidx, hutil]
    unfold scan_back
    rw [char_at_mid]
    simp only
    by_cases hc : ch ≠ '/' ∧ (pre.length : Int) ≠ 0
    · rw [if_pos hc]
      have hpre : pre ≠ [] := by
        intro h; apply hc.2; simp [h]
      have hs2 : '/' ∉ ch :: suf := by
        intro h
        rcases List.mem_cons.1 h with h | h
        · exact hc.1 h.symm
        · exact hs h
      exact ih (ch :: suf) f hs2 hpre (by simp at hf; omega)
    · rw [if_neg hc]
      refine ⟨_, ch, rfl, char_at_mid pre suf ch, ?_⟩
      by_cases hch : ch = '/'
      · right
        refine ⟨hch, by omega, pre, suf, by rw [hch], ?_, hs⟩
        have : ((pre.length : Int) + 1).toNat = pre.length + 1 := by omega
        rw [this]
        simp
      · left
        have h0 : pre.length = 0 := by
          by_contra h
          exact hc ⟨hch, by omega⟩
        have hp : pre = [] := List.length_eq_zero.1 h0
        subst hp
        refine ⟨hch, by simp, ?_⟩
        intro h
        rcases List.mem_cons.1 (by simpa using h) with h | h
        · exact hch h.symm
        · exact hs h

/-- C10: for every non-empty helper path the child computes a `filename`
(the backward scan reads no byte outside the string and ends), the argument
vector handed to `execl` starts with it, and it is the basename: the whole
path when the path has no `'/'`, otherwise the suffix after the last `'/'`. -/
theorem helper_filename_is_basename (s : State) (client : Nat) (util : List Char)
    (hne : util ≠ []) :
    ∃ name rest, helper_filename util = some name ∧
      child_execl s client util = some (util, name :: rest) ∧
      (('/' ∉ util ∧ name = util) ∨ (∃ p, util = p ++ '/' :: name ∧ '/' ∉ name)) := by
  obtain ⟨i, ch, h1, h2, h3⟩ :=
    scan_back_spec util [] (util.length + 1) (by simp) hne (by omega)
  rw [List.append_nil] at h1 h2 h3
  have hname : ∃ name, helper_filename util = some name ∧
      (('/' ∉ util ∧ name = util) ∨ (∃ p, util = p ++ '/' :: name ∧ '/' ∉ name)) := by
    unfold helper_filename
    rw [h1]
    simp only [h2]
    rcases h3 with ⟨hc, hi, hno⟩ | ⟨hc, _, p, name, hu, hd, hno⟩
    · refine ⟨_, rfl, Or.inl ⟨hno, ?_⟩⟩
      simp [hc, hi]
    · refine ⟨_, rfl, Or.inr ⟨p, ?_, ?_⟩⟩
      · simp only [hc, if_true]
        rw [hd]
        exact hu
      · simp only [hc, if_true]
        rw [hd]
        exact hno
  obtain ⟨name, hn, hprop⟩ := hname
  have hex : ∃ rest, child_execl s client util = some (util, name :: rest) := by
    unfold child_execl
    rw [hn]
    exact ⟨_, rfl⟩
  obtain ⟨rest, hrest⟩ := hex
  exact ⟨name, rest, hn, hrest, hprop⟩

/-- C10, witness: the helper `/usr/bin/nh`. -/
theorem helper_filename_is_basename_witness :
    helper_path ≠ [] ∧
    ∃ name rest, helper_filename helper_path = some name ∧
      child_execl st0 0 helper_path = some (helper_path, name :: rest) ∧
      (('/' ∉ helper_path ∧ name = helper_path) ∨
        (∃ p, helper_path = p ++ '/' :: name ∧ '/' ∉ name)) :=
  ⟨by decide, helper_filename_is_basename st0 0 helper_path (by decide)⟩


end Gssvpnd
